import Mathlib

/-!
Verification of the WebSocket proxy server (routed `WebSocketProxy` class and
the simpler `Proxy` relay) against its specification.

The JavaScript source is shallowly embedded: JS objects used as string maps
become association lists with unique keys, JS truthiness on string values is
`≠ ""`, event-driven handlers become step functions over explicit state
records, and timer/callback interleavings become explicit event schedules.
-/

/-! ## JS string and object primitives -/

/-- Models JS `pathname.startsWith(route)`: `pre` is a literal prefix of `s`. -/
def jsStartsWith (s pre : String) : Bool :=
  pre.toList.isPrefixOf s.toList

/-- Helper for `jsIncludes`: substring search over character lists. -/
def listHasSub (sub : List Char) : List Char → Bool
  | [] => sub.isPrefixOf ([] : List Char)
  | c :: rest => sub.isPrefixOf (c :: rest) || listHasSub sub rest

/-- Models JS `s.includes(sub)`. -/
def jsIncludes (s sub : String) : Bool :=
  listHasSub sub.toList s.toList

/-- Models JS property access `obj[key]` on an object represented as an
association list with unique keys; returns `none` for an absent key. -/
def jsObjGet (m : List (String × String)) (k : String) : Option String :=
  match m with
  | [] => none
  | (k', v) :: rest => if k' = k then some v else jsObjGet rest k

/-- Models JS truthiness of a possibly-absent string value:
`undefined`, `null` and `""` are falsy. -/
def jsTruthyS : Option String → Bool
  | none => false
  | some s => !(s == "")

/-! ## Route Resolver (`WebSocketProxy.getTargetForPath` / `getProtocolForPath`)

The source sorts `Object.entries(this.routes)` with the comparator
`([a], [b]) => b.length - a.length` (a stable sort, descending key length).
We model that sort with `List.insertionSort` under the same ordering; any
sort that is a permutation sorted by this comparator selects the same first
matching entry, because two distinct keys of equal length cannot both be
prefixes of the same pathname. -/

/-- The comparator `([a], [b]) => b.length - a.length`: descending key length. -/
def routeLe (a b : String × String) : Prop := b.1.length ≤ a.1.length

instance : DecidableRel routeLe := fun a b =>
  inferInstanceAs (Decidable (b.1.length ≤ a.1.length))

instance : IsTotal (String × String) routeLe :=
  ⟨fun a b => show b.1.length ≤ a.1.length ∨ a.1.length ≤ b.1.length from
    Nat.le_total _ _⟩

instance : IsTrans (String × String) routeLe :=
  ⟨fun _ _ _ h1 h2 => Nat.le_trans h2 h1⟩

/-- Embeds `WebSocketProxy.getTargetForPath`: exact (truthy) match first, then
the first entry of the length-descending sort whose key is a literal prefix of
the pathname, then the configured default target (`null` = `none`). -/
def getTargetForPath (routes : List (String × String)) (dflt : Option String)
    (p : String) : Option String :=
  if jsTruthyS (jsObjGet routes p) then jsObjGet routes p
  else
    match (List.insertionSort routeLe routes).find? (fun e => jsStartsWith p e.1) with
    | some e => some e.2
    | none => dflt

/-- Embeds `WebSocketProxy.getProtocolForPath`: exact (truthy) match in the
protocol map, then longest-prefix match, then the GraphQL substring heuristic. -/
def getProtocolForPath (pm : List (String × String)) (p : String) : Option String :=
  if jsTruthyS (jsObjGet pm p) then jsObjGet pm p
  else
    match (List.insertionSort routeLe pm).find? (fun e => jsStartsWith p e.1) with
    | some e => some e.2
    | none =>
      if jsIncludes p "graphql" || jsIncludes p "subscription" then
        some "graphql-transport-ws"
      else none

/-! ### Route Resolver lemmas -/

lemma jsObjGet_mem {m : List (String × String)} {k v : String}
    (h : jsObjGet m k = some v) : (k, v) ∈ m := by
  induction m with
  | nil => simp [jsObjGet] at h
  | cons e rest ih =>
    obtain ⟨k', v'⟩ := e
    by_cases hk : k' = k
    · subst hk
      simp [jsObjGet] at h
      simp [h]
    · simp only [jsObjGet, if_neg hk] at h
      exact List.mem_cons_of_mem _ (ih h)

lemma jsObjGet_of_mem {m : List (String × String)} {k v : String}
    (h : (k, v) ∈ m) : ∃ v', jsObjGet m k = some v' := by
  induction m with
  | nil => simp at h
  | cons e rest ih =>
    obtain ⟨k', v'⟩ := e
    by_cases hk : k' = k
    · exact ⟨v', by simp [jsObjGet, hk]⟩
    · rcases List.mem_cons.mp h with heq | hmem
      · exact absurd (congrArg Prod.fst heq).symm hk
      · simpa [jsObjGet, hk] using ih hmem

lemma nodup_keys_eq : ∀ {m : List (String × String)},
    (m.map Prod.fst).Nodup → ∀ {k a b : String},
    (k, a) ∈ m → (k, b) ∈ m → a = b := by
  intro m
  induction m with
  | nil => intro _ k a b ha; simp at ha
  | cons e rest ih =>
    intro hnd k a b ha hb
    obtain ⟨k', v'⟩ := e
    simp only [List.map_cons, List.nodup_cons] at hnd
    rcases List.mem_cons.mp ha with h1 | h1 <;> rcases List.mem_cons.mp hb with h2 | h2
    · obtain ⟨h1k, h1v⟩ := Prod.mk.inj h1
      obtain ⟨h2k, h2v⟩ := Prod.mk.inj h2
      rw [h1v, h2v]
    · obtain ⟨h1k, h1v⟩ := Prod.mk.inj h1
      exact absurd (h1k ▸ List.mem_map_of_mem Prod.fst h2) hnd.1
    · obtain ⟨h2k, h2v⟩ := Prod.mk.inj h2
      exact absurd (h2k ▸ List.mem_map_of_mem Prod.fst h1) hnd.1
    · exact ih hnd.2 h1 h2

lemma find?_first_max {α : Type} {le : α → α → Prop} {q : α → Bool} :
    ∀ {l : List α}, l.Pairwise le → ∀ {r : α}, l.find? q = some r →
    ∀ e ∈ l, q e = true → r = e ∨ le r e := by
  intro l
  induction l with
  | nil => intro _ r hr; simp at hr
  | cons x xs ih =>
    intro hpw r hr e he hq
    by_cases hx : q x = true
    · rw [List.find?_cons_of_pos _ hx, Option.some.injEq] at hr
      subst hr
      rcases List.mem_cons.mp he with rfl | hmem
      · exact Or.inl rfl
      · exact Or.inr ((List.pairwise_cons.mp hpw).1 e hmem)
    · rw [List.find?_cons_of_neg _ hx] at hr
      rcases List.mem_cons.mp he with rfl | hmem
      · exact absurd hq hx
      · exact ih (List.pairwise_cons.mp hpw).2 hr e hmem hq

lemma jsStartsWith_refl (p : String) : jsStartsWith p p = true := by
  simp [jsStartsWith, List.isPrefixOf_iff_prefix]

lemma jsStartsWith_length_le {p r : String} (h : jsStartsWith p r = true) :
    r.length ≤ p.length :=
  (List.isPrefixOf_iff_prefix.mp h).length_le

lemma jsStartsWith_eq_of_length {p r : String} (h : jsStartsWith p r = true)
    (hl : p.length ≤ r.length) : r = p := by
  apply String.ext
  exact (List.isPrefixOf_iff_prefix.mp h).eq_of_length
    (Nat.le_antisymm (jsStartsWith_length_le h) hl)

/-- If some route entry's key is a prefix of `p`, the sorted scan returns a
matching entry of maximal key length. -/
lemma scan_longest (routes : List (String × String)) (p : String)
    {e : String × String} (he : e ∈ routes) (hm : jsStartsWith p e.1 = true) :
    ∃ r ∈ routes, jsStartsWith p r.1 = true ∧
      (List.insertionSort routeLe routes).find? (fun x => jsStartsWith p x.1) = some r ∧
      ∀ e' ∈ routes, jsStartsWith p e'.1 = true → e'.1.length ≤ r.1.length := by
  have hmem : e ∈ List.insertionSort routeLe routes :=
    (List.mem_insertionSort routeLe).mpr he
  rcases hfind : (List.insertionSort routeLe routes).find? (fun x => jsStartsWith p x.1) with _ | r
  · exact absurd hm (List.find?_eq_none.mp hfind e hmem)
  · have hq : jsStartsWith p r.1 = true := by
      simpa using List.find?_some hfind
    refine ⟨r, (List.mem_insertionSort routeLe).mp (List.mem_of_find?_eq_some hfind),
      hq, hfind, ?_⟩
    intro e' he' hm'
    have hpw : (List.insertionSort routeLe routes).Pairwise routeLe :=
      List.sorted_insertionSort routeLe routes
    rcases find?_first_max hpw hfind e' ((List.mem_insertionSort routeLe).mpr he') hm' with
      heq | hle
    · exact heq ▸ Nat.le_refl _
    · exact hle

/-- Claim C4: for every pathname, the Route Resolver returns the exact-match
route entry when one exists, otherwise the target of the longest configured
prefix that is a literal prefix of the pathname, otherwise the default target;
and with routes /api ↦ A, /api/graphql ↦ B the path /api/graphql/x resolves
to B. -/
theorem c4_route_resolution (routes : List (String × String))
    (dflt : Option String) (p : String)
    (hnodup : (routes.map Prod.fst).Nodup) :
    (∀ t, jsObjGet routes p = some t → getTargetForPath routes dflt p = some t)
    ∧ (∀ e ∈ routes, jsStartsWith p e.1 = true →
        ∃ r ∈ routes, jsStartsWith p r.1 = true ∧
          getTargetForPath routes dflt p = some r.2 ∧
          ∀ e' ∈ routes, jsStartsWith p e'.1 = true → e'.1.length ≤ r.1.length)
    ∧ ((∀ e ∈ routes, jsStartsWith p e.1 = false) →
        getTargetForPath routes dflt p = dflt)
    ∧ getTargetForPath [("/api", "A"), ("/api/graphql", "B")] none "/api/graphql/x"
        = some "B" := by
  refine ⟨?_, ?_, ?_, by decide⟩
  · intro t ht
    by_cases htr : t = ""
    · subst htr
      have hmem : (p, "") ∈ routes := jsObjGet_mem ht
      obtain ⟨r, hr, hrm, hfind, hmax⟩ :=
        scan_longest routes p hmem (jsStartsWith_refl p)
      have hkey : r.1 = p :=
        jsStartsWith_eq_of_length hrm (hmax (p, "") hmem (jsStartsWith_refl p))
      have hval : r.2 = "" := by
        have : (p, r.2) ∈ routes := hkey ▸ hr
        exact nodup_keys_eq hnodup this hmem
      simp [getTargetForPath, ht, jsTruthyS, hfind, hval]
    · simp [getTargetForPath, ht, jsTruthyS, htr]
  · intro e he hm
    obtain ⟨r, hr, hrm, hfind, hmax⟩ := scan_longest routes p he hm
    refine ⟨r, hr, hrm, ?_, hmax⟩
    rcases hobj : jsObjGet routes p with _ | t
    · simp [getTargetForPath, hobj, jsTruthyS, hfind]
    · by_cases htr : t = ""
      · subst htr
        have hmem : (p, "") ∈ routes := jsObjGet_mem hobj
        have hkey : r.1 = p :=
          jsStartsWith_eq_of_length hrm (hmax (p, "") hmem (jsStartsWith_refl p))
        have hval : r.2 = "" := by
          have : (p, r.2) ∈ routes := hkey ▸ hr
          exact nodup_keys_eq hnodup this hmem
        simp [getTargetForPath, hobj, jsTruthyS, hfind, hval]
      · have hkey : r.1 = p := by
          have hmem : (p, t) ∈ routes := jsObjGet_mem hobj
          exact jsStartsWith_eq_of_length hrm (hmax (p, t) hmem (jsStartsWith_refl p))
        have hval : r.2 = t := by
          have : (p, r.2) ∈ routes := hkey ▸ hr
          exact nodup_keys_eq hnodup this (jsObjGet_mem hobj)
        simp [getTargetForPath, hobj, jsTruthyS, htr, hval]
  · intro hnone
    have hobj : jsObjGet routes p = none := by
      rcases hobj : jsObjGet routes p with _ | t
      · rfl
      · exact absurd (jsStartsWith_refl p) (by simp [hnone (p, t) (jsObjGet_mem hobj)])
    have hfind : (List.insertionSort routeLe routes).find?
        (fun x => jsStartsWith p x.1) = none := by
      apply List.find?_eq_none.mpr
      intro e hmem
      simp [hnone e ((List.mem_insertionSort routeLe).mp hmem)]
    simp [getTargetForPath, hobj, jsTruthyS, hfind]

/-- Witness for C4 at concrete inputs. -/
theorem c4_witness :
    ((([("/api", "A"), ("/api/graphql", "B")] : List (String × String)).map
        Prod.fst).Nodup)
    ∧ ((∀ t, jsObjGet [("/api", "A"), ("/api/graphql", "B")] "/api/graphql/x" = some t →
          getTargetForPath [("/api", "A"), ("/api/graphql", "B")] (some "D")
            "/api/graphql/x" = some t)
      ∧ (∀ e ∈ ([("/api", "A"), ("/api/graphql", "B")] : List (String × String)),
          jsStartsWith "/api/graphql/x" e.1 = true →
          ∃ r ∈ ([("/api", "A"), ("/api/graphql", "B")] : List (String × String)),
            jsStartsWith "/api/graphql/x" r.1 = true ∧
            getTargetForPath [("/api", "A"), ("/api/graphql", "B")] (some "D")
              "/api/graphql/x" = some r.2 ∧
            ∀ e' ∈ ([("/api", "A"), ("/api/graphql", "B")] : List (String × String)),
              jsStartsWith "/api/graphql/x" e'.1 = true →
              e'.1.length ≤ r.1.length)
      ∧ ((∀ e ∈ ([("/api", "A"), ("/api/graphql", "B")] : List (String × String)),
            jsStartsWith "/api/graphql/x" e.1 = false) →
          getTargetForPath [("/api", "A"), ("/api/graphql", "B")] (some "D")
            "/api/graphql/x" = some "D")
      ∧ getTargetForPath [("/api", "A"), ("/api/graphql", "B")] none "/api/graphql/x"
          = some "B") :=
  ⟨by decide, c4_route_resolution [("/api", "A"), ("/api/graphql", "B")]
    (some "D") "/api/graphql/x" (by decide)⟩

/-! ## Target URL construction (`WebSocketProxy.buildTargetWebSocketUrl`)

The source calls Node's legacy `url.parse(targetUrl)` and reads `.host`,
`.path` and `.pathname`. We model the legacy parser restricted to those
fields: optional `scheme:` detection, `//host` splitting at the first
`/ ? #`, fragment stripping, `pathname`/`search` splitting at `?`, the
slashed-protocol default pathname `/`, and `path = pathname + search`.
(Lowercasing of the host, auth/port splitting and percent-encoding are not
modelled; the claims quantify over already-lowercase hosts.) -/

/-- Characters the legacy parser accepts in a scheme. -/
def isProtoChar (c : Char) : Bool :=
  c.isAlpha || c.isDigit || c == '.' || c == '+' || c == '-'

/-- Characters that terminate the host portion. -/
def urlSepChar (c : Char) : Bool := c == '/' || c == '?' || c == '#'

/-- Protocols the legacy parser treats as slashed (pathname defaults to /). -/
def slashedProto (pr : String) : Bool :=
  pr == "http:" || pr == "https:" || pr == "ws:" || pr == "wss:" ||
  pr == "ftp:" || pr == "gopher:" || pr == "file:"

/-- Split a leading `scheme:` off a character list, as the legacy parser does. -/
def protoSplit (cs : List Char) : Option String × List Char :=
  if !(cs.takeWhile isProtoChar).isEmpty &&
      ((cs.drop (cs.takeWhile isProtoChar).length).head? == some ':') then
    (some (String.mk (cs.takeWhile isProtoChar ++ [':'])),
     cs.drop ((cs.takeWhile isProtoChar).length + 1))
  else (none, cs)

/-- Split a leading `//host` off a character list. -/
def hostSplit : List Char → Option String × List Char
  | '/' :: '/' :: r =>
      (some (String.mk (r.takeWhile (fun c => !urlSepChar c))),
       r.dropWhile (fun c => !urlSepChar c))
  | cs => (none, cs)

structure ParsedUrl where
  proto : Option String
  host : Option String
  pathname : Option String
  search : Option String
deriving DecidableEq

/-- Model of Node's legacy `url.parse` restricted to the fields the proxy
reads. -/
def parseUrlModel (s : String) : ParsedUrl :=
  let pr := protoSplit s.toList
  let hs := hostSplit pr.2
  let tailNoHash := hs.2.takeWhile (fun c => !(c == '#'))
  let pathname :=
    match tailNoHash.takeWhile (fun c => !(c == '?')) with
    | [] =>
      if ((pr.1.map slashedProto).getD false) && jsTruthyS hs.1 then some "/"
      else none
    | c :: cs => some (String.mk (c :: cs))
  let search :=
    match tailNoHash.dropWhile (fun c => !(c == '?')) with
    | [] => none
    | c :: cs => some (String.mk (c :: cs))
  ⟨pr.1, hs.1, pathname, search⟩

/-- Node's `url.path`: `pathname + search` when either is truthy, else null. -/
def ParsedUrl.path (u : ParsedUrl) : Option String :=
  if jsTruthyS u.pathname || jsTruthyS u.search then
    some ((u.pathname.getD "") ++ (u.search.getD ""))
  else none

/-- JS `a || b` on possibly-absent strings. -/
def jsOrS (a b : Option String) : Option String := if jsTruthyS a then a else b

/-- JS template-literal rendering of a possibly-null string (null prints
as the text null). -/
def jsStr : Option String → String
  | none => "null"
  | some s => s

/-- Embeds `WebSocketProxy.buildTargetWebSocketUrl`: a target already using a
WebSocket scheme is returned with the query string appended; otherwise the
scheme is rewritten (https to wss, anything else to ws) and the URL rebuilt
from the parsed host and `path || pathname || ''` plus the query string. -/
def buildTargetWebSocketUrl (targetUrl : String) (queryString : String) : String :=
  if jsStartsWith targetUrl "ws://" || jsStartsWith targetUrl "wss://" then
    targetUrl ++ queryString
  else
    let parsedTarget := parseUrlModel targetUrl
    let protocol := if jsStartsWith targetUrl "https://" then "wss:" else "ws:"
    let host := jsStr parsedTarget.host
    let path := (jsOrS parsedTarget.path parsedTarget.pathname).getD ""
    protocol ++ "//" ++ host ++ path ++ queryString

/-! ### URL construction lemmas -/

lemma takeWhile_append_all {p : Char → Bool} {l₁ l₂ : List Char}
    (h : ∀ c ∈ l₁, p c = true) :
    (l₁ ++ l₂).takeWhile p = l₁ ++ l₂.takeWhile p := by
  rw [List.takeWhile_append, List.takeWhile_eq_self_iff.mpr h, if_pos rfl]

lemma dropWhile_eq_nil_all {p : Char → Bool} {l : List Char}
    (h : ∀ c ∈ l, p c = true) : l.dropWhile p = [] := by
  have := List.takeWhile_append_dropWhile p l
  rw [List.takeWhile_eq_self_iff.mpr h] at this
  exact List.append_cancel_left (this.trans (List.append_nil l).symm)

lemma dropWhile_append_all {p : Char → Bool} {l₁ l₂ : List Char}
    (h : ∀ c ∈ l₁, p c = true) :
    (l₁ ++ l₂).dropWhile p = l₂.dropWhile p := by
  rw [List.dropWhile_append, dropWhile_eq_nil_all h]
  rfl

lemma jsStartsWith_append (s r : String) : jsStartsWith (s ++ r) s = true := by
  simp only [jsStartsWith, String.data_append]
  exact List.isPrefixOf_iff_prefix.mpr (List.prefix_append _ _)

/-- Parsing a well-shaped `scheme://host/path` URL recovers the host and the
full path-plus-query remainder. -/
lemma parseUrlModel_shaped (sch h p : String)
    (hsch : ∀ c ∈ sch.toList, isProtoChar c = true) (hne : sch.toList ≠ [])
    (hh : ∀ c ∈ h.toList, urlSepChar c = false) (hp : '#' ∉ p.toList) :
    (parseUrlModel (sch ++ "://" ++ h ++ "/" ++ p)).host = some h ∧
    (jsOrS (parseUrlModel (sch ++ "://" ++ h ++ "/" ++ p)).path
      (parseUrlModel (sch ++ "://" ++ h ++ "/" ++ p)).pathname).getD ""
      = "/" ++ p := by
  have hcs : (sch ++ "://" ++ h ++ "/" ++ p).toList
      = sch.toList ++ (':' :: '/' :: '/' :: (h.toList ++ '/' :: p.toList)) := by
    have h1 : ("://" : String).toList = [':', '/', '/'] := rfl
    have h2 : ("/" : String).toList = ['/'] := rfl
    simp only [String.data_append] at *
    simp [h1, h2, List.append_assoc]
  have e1 : protoSplit ((sch ++ "://" ++ h ++ "/" ++ p).toList)
      = (some (String.mk (sch.toList ++ [':'])),
         '/' :: '/' :: (h.toList ++ '/' :: p.toList)) := by
    rw [hcs]
    unfold protoSplit
    have htw : (sch.toList ++ (':' :: '/' :: '/' :: (h.toList ++ '/' :: p.toList))).takeWhile
        isProtoChar = sch.toList := by
      rw [takeWhile_append_all hsch]
      simp [List.takeWhile_cons, isProtoChar]
    rw [htw, List.drop_left]
    have hdrop1 : (sch.toList ++ (':' :: '/' :: '/' :: (h.toList ++ '/' :: p.toList))).drop
        (sch.toList.length + 1) = '/' :: '/' :: (h.toList ++ '/' :: p.toList) := by
      have hre : sch.toList ++ (':' :: '/' :: '/' :: (h.toList ++ '/' :: p.toList))
          = (sch.toList ++ [':']) ++ ('/' :: '/' :: (h.toList ++ '/' :: p.toList)) := by
        simp [List.append_assoc]
      rw [hre, List.drop_left' (by simp)]
    rw [hdrop1]
    have hpe : sch.toList.isEmpty = false := by
      cases hsl : sch.toList with
      | nil => exact absurd hsl hne
      | cons a l => rfl
    simp [hpe]
    exact hne
  have e2 : hostSplit ('/' :: '/' :: (h.toList ++ '/' :: p.toList))
      = (some h, '/' :: p.toList) := by
    show (some (String.mk ((h.toList ++ '/' :: p.toList).takeWhile (fun c => !urlSepChar c))),
      (h.toList ++ '/' :: p.toList).dropWhile (fun c => !urlSepChar c))
      = (some h, '/' :: p.toList)
    have hall : ∀ c ∈ h.toList, (!urlSepChar c) = true := by
      intro c hc
      simp [hh c hc]
    rw [takeWhile_append_all hall, dropWhile_append_all hall]
    have hsl : urlSepChar '/' = true := by decide
    simp [List.takeWhile_cons, List.dropWhile_cons, hsl]
  have e3 : ('/' :: p.toList).takeWhile (fun c => !(c == '#')) = '/' :: p.toList := by
    apply List.takeWhile_eq_self_iff.mpr
    intro c hc
    rcases List.mem_cons.mp hc with rfl | hcp
    · decide
    · simp
      exact fun he => hp (he ▸ hcp)
  have e4 : ('/' :: p.toList).takeWhile (fun c => !(c == '?'))
      = '/' :: p.toList.takeWhile (fun c => !(c == '?')) := by
    simp [List.takeWhile_cons]
  have e5 : ('/' :: p.toList).dropWhile (fun c => !(c == '?'))
      = p.toList.dropWhile (fun c => !(c == '?')) := by
    simp [List.dropWhile_cons]
  refine ⟨?_, ?_⟩
  · simp only [parseUrlModel, e1, e2]
  · simp only [parseUrlModel, e1, e2, e3, e4, e5]
    have hpns : (String.mk ('/' :: p.toList.takeWhile (fun c => !(c == '?'))) == "") = false := by
      apply beq_eq_false_iff_ne.mpr
      intro he
      exact List.cons_ne_nil _ _ (congrArg String.data he)
    rcases hdw : p.toList.dropWhile (fun c => !(c == '?')) with _ | ⟨c, cs⟩
    · have htw : p.toList.takeWhile (fun c => !(c == '?')) = p.toList := by
        have hsplit := List.takeWhile_append_dropWhile (fun c => !(c == '?')) p.toList
        rw [hdw, List.append_nil] at hsplit
        exact hsplit
      simp only [ParsedUrl.path, jsOrS, jsTruthyS, hpns, Bool.not_false, Bool.true_or,
        if_pos rfl, Option.getD_some, Option.getD_none, String.append_empty]
      apply String.ext
      show '/' :: p.toList.takeWhile (fun c => !(c == '?')) = ("/" ++ p).data
      rw [String.data_append, htw]
      rfl
    · have hne2 : (String.mk ('/' :: p.toList.takeWhile (fun c => !(c == '?')))
          ++ String.mk (c :: cs) == "") = false := by
        apply beq_eq_false_iff_ne.mpr
        intro he
        have hd := congrArg String.data he
        rw [String.data_append] at hd
        exact List.cons_ne_nil _ _ hd
      simp only [ParsedUrl.path, jsOrS, jsTruthyS, hpns, Bool.not_false, Bool.true_or,
        if_pos rfl, Option.getD_some, hne2]
      apply String.ext
      show ('/' :: p.toList.takeWhile (fun c => !(c == '?'))) ++ (c :: cs) = ("/" ++ p).data
      rw [String.data_append]
      show '/' :: (p.toList.takeWhile (fun c => !(c == '?')) ++ (c :: cs)) = '/' :: p.toList
      rw [← hdw, List.takeWhile_append_dropWhile]

/-- Claim C10, counterexample: a target without a `//` separator does not keep
its own host and path; Node's template literal renders the null host as the
text null, so the claim as stated fails on the target localhost/x. -/
theorem c10_counterexample :
    buildTargetWebSocketUrl "localhost/x" "" = "ws://nulllocalhost/x"
    ∧ buildTargetWebSocketUrl "localhost/x" "" ≠ "ws://localhost/x" := by
  decide

/-- Claim C10 (amended): a target already using a ws or wss scheme is returned
as the target concatenated with the query string (the inbound pathname is
never passed in); a target with an https scheme yields a wss URL and any
other target a ws URL; for well-shaped http(s)://host/path targets the host
and path are preserved, followed by the query string. -/
theorem c10_build_target_ws_url (t q h p : String)
    (hh : ∀ c ∈ h.toList, urlSepChar c = false) (hp : '#' ∉ p.toList) :
    ((jsStartsWith t "ws://" = true ∨ jsStartsWith t "wss://" = true) →
      buildTargetWebSocketUrl t q = t ++ q)
    ∧ (jsStartsWith t "ws://" = false → jsStartsWith t "wss://" = false →
        (jsStartsWith t "https://" = true →
          jsStartsWith (buildTargetWebSocketUrl t q) "wss://" = true)
        ∧ (jsStartsWith t "https://" = false →
          jsStartsWith (buildTargetWebSocketUrl t q) "ws://" = true))
    ∧ buildTargetWebSocketUrl ("https://" ++ h ++ "/" ++ p) q
        = "wss://" ++ h ++ "/" ++ p ++ q
    ∧ buildTargetWebSocketUrl ("http://" ++ h ++ "/" ++ p) q
        = "ws://" ++ h ++ "/" ++ p ++ q := by
  refine ⟨?_, ?_, ?_, ?_⟩
  · intro hor
    rcases hor with h1 | h1 <;> simp [buildTargetWebSocketUrl, h1]
  · intro hw hws
    constructor
    · intro hhtt
      simp only [buildTargetWebSocketUrl, hw, hws, hhtt, Bool.or_self, Bool.false_eq_true,
        if_false, if_true]
      rw [show ("wss:" ++ "//" : String) = "wss://" from rfl, String.append_assoc,
        String.append_assoc]
      exact jsStartsWith_append _ _
    · intro hhtt
      simp only [buildTargetWebSocketUrl, hw, hws, hhtt, Bool.or_self, Bool.false_eq_true,
        if_false, if_true]
      rw [show ("ws:" ++ "//" : String) = "ws://" from rfl, String.append_assoc,
        String.append_assoc]
      exact jsStartsWith_append _ _
  · have hws1 : jsStartsWith ("https://" ++ h ++ "/" ++ p) "ws://" = false := by
      simp [jsStartsWith, String.data_append, List.isPrefixOf]
    have hws2 : jsStartsWith ("https://" ++ h ++ "/" ++ p) "wss://" = false := by
      simp [jsStartsWith, String.data_append, List.isPrefixOf]
    have hhtt : jsStartsWith ("https://" ++ h ++ "/" ++ p) "https://" = true := by
      have hre : ("https://" ++ h ++ "/" ++ p) = "https://" ++ (h ++ ("/" ++ p)) := by
        simp [String.append_assoc]
      rw [hre]
      exact jsStartsWith_append _ _
    have hparse := parseUrlModel_shaped "https" h p (by decide) (by decide) hh hp
    rw [show ("https" ++ "://" : String) = "https://" from rfl] at hparse
    obtain ⟨hhost, hpath⟩ := hparse
    simp only [buildTargetWebSocketUrl, hws1, hws2, hhtt, Bool.or_self, Bool.false_eq_true,
      if_false, if_true, hhost, hpath, jsStr]
    rw [show ("wss:" ++ "//" : String) = "wss://" from rfl]
    simp [String.append_assoc]
  · have hws1 : jsStartsWith ("http://" ++ h ++ "/" ++ p) "ws://" = false := by
      simp [jsStartsWith, String.data_append, List.isPrefixOf]
    have hws2 : jsStartsWith ("http://" ++ h ++ "/" ++ p) "wss://" = false := by
      simp [jsStartsWith, String.data_append, List.isPrefixOf]
    have hhtt : jsStartsWith ("http://" ++ h ++ "/" ++ p) "https://" = false := by
      simp [jsStartsWith, String.data_append, List.isPrefixOf]
    have hparse := parseUrlModel_shaped "http" h p (by decide) (by decide) hh hp
    rw [show ("http" ++ "://" : String) = "http://" from rfl] at hparse
    obtain ⟨hhost, hpath⟩ := hparse
    simp only [buildTargetWebSocketUrl, hws1, hws2, hhtt, Bool.or_self, Bool.false_eq_true,
      if_false, if_true, hhost, hpath, jsStr]
    rw [show ("ws:" ++ "//" : String) = "ws://" from rfl]
    simp [String.append_assoc]

/-- Witness for C10 at concrete inputs. -/
theorem c10_witness :
    (∀ c ∈ ("api.aion.to" : String).toList, urlSepChar c = false)
    ∧ ('#' ∉ ("ws/graphql" : String).toList)
    ∧ (((jsStartsWith "wss://up.example" "ws://" = true ∨
          jsStartsWith "wss://up.example" "wss://" = true) →
        buildTargetWebSocketUrl "wss://up.example" "?token=1"
          = "wss://up.example" ++ "?token=1")
      ∧ (jsStartsWith "wss://up.example" "ws://" = false →
          jsStartsWith "wss://up.example" "wss://" = false →
          (jsStartsWith "wss://up.example" "https://" = true →
            jsStartsWith (buildTargetWebSocketUrl "wss://up.example" "?token=1")
              "wss://" = true)
          ∧ (jsStartsWith "wss://up.example" "https://" = false →
            jsStartsWith (buildTargetWebSocketUrl "wss://up.example" "?token=1")
              "ws://" = true))
      ∧ buildTargetWebSocketUrl ("https://" ++ "api.aion.to" ++ "/" ++ "ws/graphql")
          "?token=1" = "wss://" ++ "api.aion.to" ++ "/" ++ "ws/graphql" ++ "?token=1"
      ∧ buildTargetWebSocketUrl ("http://" ++ "api.aion.to" ++ "/" ++ "ws/graphql")
          "?token=1" = "ws://" ++ "api.aion.to" ++ "/" ++ "ws/graphql" ++ "?token=1") :=
  ⟨by decide, by decide,
    c10_build_target_ws_url "wss://up.example" "?token=1" "api.aion.to" "ws/graphql"
      (by decide) (by decide)⟩

/-! ## Header/Protocol Negotiator (`WebSocketProxy.getProxyHeaders`)

Inbound headers are modelled as a lookup function `String → Option String`
(Node lowercases names, joins duplicates, and allows `""` values); the
outbound header object is built by JS assignments, modelled as pointwise
function updates. -/

/-- The fixed allowlist `headersToForward` of the source. -/
def headersToForward : List String :=
  ["authorization", "cookie", "user-agent", "sec-websocket-protocol",
   "sec-websocket-extensions", "origin"]

/-- JS object assignment `headers[k] = v`. -/
def setHdr (hm : String → Option String) (k v : String) : String → Option String :=
  fun k' => if k' = k then some v else hm k'

/-- The allowlist `forEach` loop: copy each inbound header whose value is
truthy. -/
def proxyAllowHeaders (reqHeaders : String → Option String) :
    String → Option String :=
  headersToForward.foldl
    (fun hm name =>
      if jsTruthyS (reqHeaders name) then setHdr hm name ((reqHeaders name).getD "")
      else hm)
    (fun _ => none)

/-- Embeds `WebSocketProxy.getProxyHeaders`: the allowlist copy, the
conditional subprotocol injection from the Route Resolver (the upgrade
request's `request.url` always has a pathname; an absent one is read as ""),
and finally the three fixed protocol headers. -/
def getProxyHeaders (pm : List (String × String))
    (reqHeaders : String → Option String) (reqUrl : String) :
    String → Option String :=
  let h1 := proxyAllowHeaders reqHeaders
  let h2 :=
    if jsTruthyS (h1 "sec-websocket-protocol") then h1
    else
      let protocol := getProtocolForPath pm ((parseUrlModel reqUrl).pathname.getD "")
      if jsTruthyS protocol then
        setHdr h1 "sec-websocket-protocol" (protocol.getD "")
      else h1
  setHdr (setHdr (setHdr h2 "sec-websocket-version" "13") "connection" "Upgrade")
    "upgrade" "websocket"

/-! ### Header lemmas -/

lemma foldHeaders_skip (reqHeaders : String → Option String) :
    ∀ (names : List String) (hm : String → Option String) (k : String), k ∉ names →
    (names.foldl
      (fun hm name =>
        if jsTruthyS (reqHeaders name) then setHdr hm name ((reqHeaders name).getD "")
        else hm) hm) k = hm k := by
  intro names
  induction names with
  | nil => intro hm k _; rfl
  | cons n ns ih =>
    intro hm k hk
    rw [List.foldl_cons, ih _ _ (fun hc => hk (List.mem_cons_of_mem _ hc))]
    have hkn : k ≠ n := fun he => hk (he ▸ List.mem_cons_self n ns)
    by_cases htr : jsTruthyS (reqHeaders n) = true
    · rw [if_pos htr]
      simp [setHdr, hkn]
    · rw [if_neg htr]

lemma foldHeaders_mem (reqHeaders : String → Option String) :
    ∀ (names : List String) (hm : String → Option String) (k : String), k ∈ names →
    jsTruthyS (reqHeaders k) = true →
    (names.foldl
      (fun hm name =>
        if jsTruthyS (reqHeaders name) then setHdr hm name ((reqHeaders name).getD "")
        else hm) hm) k = reqHeaders k := by
  intro names
  induction names with
  | nil => intro hm k hk; simp at hk
  | cons n ns ih =>
    intro hm k hk htr
    by_cases hkn : k ∈ ns
    · rw [List.foldl_cons]
      exact ih _ _ hkn htr
    · have hkeq : k = n := ((List.mem_cons.mp hk).resolve_right hkn)
      subst hkeq
      rw [List.foldl_cons, foldHeaders_skip reqHeaders ns _ _ hkn, if_pos htr]
      cases hrk : reqHeaders k with
      | none => rw [hrk] at htr; simp [jsTruthyS] at htr
      | some v => simp [setHdr, hrk]

lemma foldHeaders_notTruthy (reqHeaders : String → Option String) :
    ∀ (names : List String) (hm : String → Option String) (k : String),
    jsTruthyS (reqHeaders k) = false →
    (names.foldl
      (fun hm name =>
        if jsTruthyS (reqHeaders name) then setHdr hm name ((reqHeaders name).getD "")
        else hm) hm) k = hm k := by
  intro names
  induction names with
  | nil => intro hm k _; rfl
  | cons n ns ih =>
    intro hm k htr
    rw [List.foldl_cons, ih _ _ htr]
    by_cases hkn : k = n
    · subst hkn
      rw [if_neg (fun hc => by rw [htr] at hc; exact Bool.false_ne_true hc)]
    · by_cases htn : jsTruthyS (reqHeaders n) = true
      · rw [if_pos htn]
        simp [setHdr, hkn]
      · rw [if_neg htn]

lemma proxyAllowHeaders_mem {reqHeaders : String → Option String} {k : String}
    (hk : k ∈ headersToForward) (htr : jsTruthyS (reqHeaders k) = true) :
    proxyAllowHeaders reqHeaders k = reqHeaders k :=
  foldHeaders_mem reqHeaders headersToForward _ k hk htr

lemma proxyAllowHeaders_skip {reqHeaders : String → Option String} {k : String}
    (hk : k ∉ headersToForward) :
    proxyAllowHeaders reqHeaders k = none :=
  foldHeaders_skip reqHeaders headersToForward _ k hk

lemma proxyAllowHeaders_notTruthy {reqHeaders : String → Option String} {k : String}
    (htr : jsTruthyS (reqHeaders k) = false) :
    proxyAllowHeaders reqHeaders k = none :=
  foldHeaders_notTruthy reqHeaders headersToForward _ k htr

/-- Concrete inbound header map for the C8 counterexample and witness:
an authorization header that is present but empty, plus a cookie. -/
def c8Hdrs : String → Option String :=
  fun k => if k = "authorization" then some ""
    else if k = "cookie" then some "sid=1" else none

/-- Claim C8, counterexample: an allowlisted inbound header that is present
with an empty value is dropped by the JS truthiness check, so the outbound
map does not contain exactly the allowlisted inbound headers. -/
theorem c8_counterexample :
    c8Hdrs "authorization" = some ""
    ∧ "authorization" ∈ headersToForward
    ∧ getProxyHeaders [] c8Hdrs "/ws" "authorization" = none := by
  refine ⟨rfl, by decide, ?_⟩
  decide

/-- Claim C8 (amended): the outbound header map contains exactly the
allowlisted inbound headers that have truthy (non-empty) values, copied
verbatim; all other inbound headers are dropped; the resolved subprotocol is
injected only when no truthy inbound subprotocol header exists; and the
version, connection and upgrade headers are always the fixed values. -/
theorem c8_proxy_headers (pm : List (String × String))
    (reqHeaders : String → Option String) (reqUrl : String) :
    (∀ n v, n ∈ headersToForward → reqHeaders n = some v → v ≠ "" →
      getProxyHeaders pm reqHeaders reqUrl n = some v)
    ∧ (∀ n, n ∉ headersToForward →
        n ∉ ["sec-websocket-version", "connection", "upgrade"] →
        getProxyHeaders pm reqHeaders reqUrl n = none)
    ∧ getProxyHeaders pm reqHeaders reqUrl "sec-websocket-version" = some "13"
    ∧ getProxyHeaders pm reqHeaders reqUrl "connection" = some "Upgrade"
    ∧ getProxyHeaders pm reqHeaders reqUrl "upgrade" = some "websocket"
    ∧ (jsTruthyS (reqHeaders "sec-websocket-protocol") = false →
        ∀ pr, getProtocolForPath pm ((parseUrlModel reqUrl).pathname.getD "") = some pr →
        pr ≠ "" →
        getProxyHeaders pm reqHeaders reqUrl "sec-websocket-protocol" = some pr)
    ∧ (jsTruthyS (reqHeaders "sec-websocket-protocol") = false →
        jsTruthyS (getProtocolForPath pm ((parseUrlModel reqUrl).pathname.getD ""))
          = false →
        getProxyHeaders pm reqHeaders reqUrl "sec-websocket-protocol" = none) := by
  refine ⟨?_, ?_, ?_, ?_, ?_, ?_, ?_⟩
  · intro n v hmem hv hvne
    have htr : jsTruthyS (reqHeaders n) = true := by
      simp [jsTruthyS, hv, hvne]
    have hfix1 : n ≠ "upgrade" := by
      rintro rfl; exact absurd hmem (by decide)
    have hfix2 : n ≠ "connection" := by
      rintro rfl; exact absurd hmem (by decide)
    have hfix3 : n ≠ "sec-websocket-version" := by
      rintro rfl; exact absurd hmem (by decide)
    have hval : proxyAllowHeaders reqHeaders n = some v :=
      (proxyAllowHeaders_mem hmem htr).trans hv
    simp only [getProxyHeaders, setHdr, if_neg hfix1, if_neg hfix2, if_neg hfix3]
    by_cases hsw : jsTruthyS (proxyAllowHeaders reqHeaders "sec-websocket-protocol") = true
    · rw [if_pos hsw]
      exact hval
    · rw [if_neg hsw]
      by_cases hpr : jsTruthyS
          (getProtocolForPath pm ((parseUrlModel reqUrl).pathname.getD "")) = true
      · rw [if_pos hpr]
        have hnsw : n ≠ "sec-websocket-protocol" := by
          rintro rfl
          rw [hval] at hsw
          exact hsw (by simp [jsTruthyS, hvne])
        simp only [setHdr, if_neg hnsw]
        exact hval
      · rw [if_neg hpr]
        exact hval
  · intro n hmem hfix
    have hfix1 : n ≠ "upgrade" := fun he => hfix (by rw [he]; decide)
    have hfix2 : n ≠ "connection" := fun he => hfix (by rw [he]; decide)
    have hfix3 : n ≠ "sec-websocket-version" := fun he => hfix (by rw [he]; decide)
    have hnsw : n ≠ "sec-websocket-protocol" := by
      rintro rfl; exact absurd (by decide : "sec-websocket-protocol" ∈ headersToForward) hmem
    have hval : proxyAllowHeaders reqHeaders n = none := proxyAllowHeaders_skip hmem
    simp only [getProxyHeaders, setHdr, if_neg hfix1, if_neg hfix2, if_neg hfix3]
    by_cases hsw : jsTruthyS (proxyAllowHeaders reqHeaders "sec-websocket-protocol") = true
    · rw [if_pos hsw]; exact hval
    · rw [if_neg hsw]
      by_cases hpr : jsTruthyS
          (getProtocolForPath pm ((parseUrlModel reqUrl).pathname.getD "")) = true
      · rw [if_pos hpr]
        simp only [setHdr, if_neg hnsw]
        exact hval
      · rw [if_neg hpr]; exact hval
  · rfl
  · rfl
  · rfl
  · intro hsw pr hpr hprne
    have hnone : proxyAllowHeaders reqHeaders "sec-websocket-protocol" = none :=
      proxyAllowHeaders_notTruthy hsw
    have hswn : ¬(jsTruthyS (proxyAllowHeaders reqHeaders "sec-websocket-protocol")
        = true) := by
      rw [hnone]; exact Bool.false_ne_true
    have hprt : jsTruthyS
        (getProtocolForPath pm ((parseUrlModel reqUrl).pathname.getD "")) = true := by
      simp [hpr, jsTruthyS, hprne]
    have hprt2 : jsTruthyS (some pr) = true := by
      simp [jsTruthyS, hprne]
    simp [getProxyHeaders, setHdr, hswn, hprt, hprt2, hpr]
  · intro hsw hprf
    have hnone : proxyAllowHeaders reqHeaders "sec-websocket-protocol" = none :=
      proxyAllowHeaders_notTruthy hsw
    have hswn : ¬(jsTruthyS (proxyAllowHeaders reqHeaders "sec-websocket-protocol")
        = true) := by
      rw [hnone]; exact Bool.false_ne_true
    have hprn : ¬(jsTruthyS
        (getProtocolForPath pm ((parseUrlModel reqUrl).pathname.getD "")) = true) := by
      rw [hprf]; exact Bool.false_ne_true
    simp [getProxyHeaders, setHdr, hswn, hprn, hnone]

/-- Witness for C8 at concrete inputs. -/
theorem c8_witness :
    ("cookie" ∈ headersToForward) ∧ (c8Hdrs "cookie" = some "sid=1")
    ∧ ("sid=1" ≠ "")
    ∧ getProxyHeaders [] c8Hdrs "/x" "cookie" = some "sid=1" :=
  ⟨by decide, rfl, by decide,
    (c8_proxy_headers [] c8Hdrs "/x").1 "cookie" "sid=1" (by decide) rfl (by decide)⟩
/-! ## Upgrade Handshake Orchestrator (`WebSocketProxy.handleWebSocketUpgrade`)

Each call to `attemptConnection` creates a fresh target WebSocket with its
own closure variables `isUpgraded` / `connectionClosed` / `clientWs` and its
own connection-timeout timer, while `retries` is shared across attempts. We
model a session as a state machine: `flags` maps each attempt generation to
its closure variables, and events (start of a scheduled call, open, error,
timeout firing, inbound socket error) are delivered in an explicit schedule.
An event for a generation that does not exist, a timeout whose timer was
cleared, and handler bodies guarded by `connectionClosed` are no-ops, exactly
as in the event-loop semantics. `errSeen` is ghost state recording that the
error handler ran for that attempt; it affects no behaviour. -/

structure WsErr where
  msg : String
  code : Option String
deriving DecidableEq

/-- The authentication-error test of the source: the message mentions 401
or 403. -/
def isAuthErr (e : WsErr) : Bool :=
  jsIncludes e.msg "401" || jsIncludes e.msg "403"

/-- The `isTemporaryError` test of the source. -/
def isTemporaryError (e : WsErr) : Bool :=
  e.code == some "ECONNREFUSED" || e.code == some "ENOTFOUND" ||
  e.code == some "ETIMEDOUT" || jsIncludes e.msg "Unexpected server response"

/-- Per-attempt closure variables (plus the timer arming and the ghost
`errSeen`). -/
structure AttemptFlags where
  isUpgraded : Bool := false
  connectionClosed : Bool := false
  hasClientWs : Bool := false
  timerArmed : Bool := false
  errSeen : Bool := false
deriving DecidableEq

/-- Flags of a freshly started attempt: its connection timeout is armed. -/
def AttemptFlags.fresh : AttemptFlags := { timerArmed := true }

/-- Observable state of one upgrade session. -/
structure UState where
  retries : Nat
  genCount : Nat
  flags : Nat → AttemptFlags
  pendingCall : Bool
  delays : List Nat
  responses : List Nat
  socketDestroyed : Bool
  upgradeCount : Nat
  relayCount : Nat

/-- Session state at `handleWebSocketUpgrade` entry: `retries = 0` and the
initial `attemptConnection()` call pending. -/
def initU : UState where
  retries := 0
  genCount := 0
  flags := fun _ => {}
  pendingCall := true
  delays := []
  responses := []
  socketDestroyed := false
  upgradeCount := 0
  relayCount := 0

def updFlags (m : Nat → AttemptFlags) (g : Nat) (f : AttemptFlags) :
    Nat → AttemptFlags :=
  fun i => if i = g then f else m i

inductive UEv where
  | start
  | opened (g : Nat)
  | failed (g : Nat) (e : WsErr)
  | timedOut (g : Nat)
  | sockErr (g : Nat)
deriving DecidableEq

/-- One event of the upgrade session, translated handler by handler from
`handleWebSocketUpgrade` (lines 950-1124 of the source). -/
def stepU (mr rd : Nat) (s : UState) : UEv → UState
  | .start =>
    if s.pendingCall then
      { s with
        pendingCall := false
        genCount := s.genCount + 1
        flags := updFlags s.flags s.genCount AttemptFlags.fresh }
    else s
  | .opened g =>
    if s.genCount ≤ g then s
    else
      let f := s.flags g
      if f.connectionClosed then s
      else if f.isUpgraded then
        { s with flags := updFlags s.flags g { f with timerArmed := false } }
      else
        { s with
          flags := updFlags s.flags g
            { f with
              timerArmed := false
              isUpgraded := true
              hasClientWs := true }
          upgradeCount := s.upgradeCount + 1
          relayCount := s.relayCount + 1 }
  | .failed g e =>
    if s.genCount ≤ g then s
    else
      let f := s.flags g
      if f.connectionClosed then s
      else if isAuthErr e then
        if !f.isUpgraded then
          { s with
            flags := updFlags s.flags g
              { f with
                timerArmed := false
                errSeen := true
                connectionClosed := true }
            responses := s.responses ++ [401]
            socketDestroyed := true }
        else
          { s with
            flags := updFlags s.flags g
              { f with
                timerArmed := false
                errSeen := true
                connectionClosed := true } }
      else if isTemporaryError e && decide (s.retries < mr) && !f.isUpgraded then
        { s with
          flags := updFlags s.flags g
            { f with
              timerArmed := false
              errSeen := true }
          retries := s.retries + 1
          pendingCall := true
          delays := s.delays ++ [rd * (s.retries + 1)] }
      else if !f.isUpgraded then
        { s with
          flags := updFlags s.flags g
            { f with
              timerArmed := false
              errSeen := true
              connectionClosed := true }
          responses := s.responses ++ [502]
          socketDestroyed := true }
      else
        { s with
          flags := updFlags s.flags g
            { f with
              timerArmed := false
              errSeen := true
              connectionClosed := true } }
  | .timedOut g =>
    if s.genCount ≤ g then s
    else
      let f := s.flags g
      if !f.timerArmed then s
      else if !f.isUpgraded && !f.connectionClosed then
        if s.retries < mr then
          { s with
            flags := updFlags s.flags g
              { f with
                timerArmed := false
                connectionClosed := true }
            retries := s.retries + 1
            pendingCall := true
            delays := s.delays ++ [rd * (s.retries + 1)] }
        else
          { s with
            flags := updFlags s.flags g
              { f with
                timerArmed := false
                connectionClosed := true }
            responses := s.responses ++ [504]
            socketDestroyed := true }
      else { s with flags := updFlags s.flags g { f with timerArmed := false } }
  | .sockErr g =>
    if s.genCount ≤ g then s
    else
      let f := s.flags g
      if f.connectionClosed then s
      else
        { s with
          flags := updFlags s.flags g
            { f with
              timerArmed := false
              connectionClosed := true } }

def runU (mr rd : Nat) : UState → List UEv → UState
  | s, [] => s
  | s, ev :: evs => runU mr rd (stepU mr rd s ev) evs

/-- The schedule in which every attempt fails with an outbound error. -/
def failSched (errs : List WsErr) (g : Nat) : List UEv :=
  match errs with
  | [] => []
  | e :: rest => UEv.start :: UEv.failed g e :: failSched rest (g + 1)

/-! ### Orchestrator step lemmas -/

lemma updFlags_same (m : Nat → AttemptFlags) (g : Nat) (f : AttemptFlags) :
    updFlags m g f g = f := by
  simp [updFlags]

lemma updFlags_other (m : Nat → AttemptFlags) (g : Nat) (f : AttemptFlags)
    {i : Nat} (h : i ≠ g) : updFlags m g f i = m i := by
  simp [updFlags, h]

lemma stepU_start_pending {mr rd : Nat} {s : UState} (hp : s.pendingCall = true) :
    stepU mr rd s .start =
      { s with
        pendingCall := false
        genCount := s.genCount + 1
        flags := updFlags s.flags s.genCount AttemptFlags.fresh } := by
  simp [stepU, hp]

lemma stepU_failed_retry {mr rd : Nat} {s : UState} {e : WsErr} {g : Nat}
    (hg : s.genCount = g + 1) (hf : s.flags g = AttemptFlags.fresh)
    (hna : isAuthErr e = false) (ht : isTemporaryError e = true)
    (hlt : s.retries < mr) :
    stepU mr rd s (.failed g e) =
      { s with
        flags := updFlags s.flags g
          { AttemptFlags.fresh with
            timerArmed := false
            errSeen := true }
        retries := s.retries + 1
        pendingCall := true
        delays := s.delays ++ [rd * (s.retries + 1)] } := by
  have hng : ¬(s.genCount ≤ g) := by omega
  simp [stepU, hng, hf, hna, ht, hlt, AttemptFlags.fresh]

lemma stepU_failed_exhausted {mr rd : Nat} {s : UState} {e : WsErr} {g : Nat}
    (hg : s.genCount = g + 1) (hf : s.flags g = AttemptFlags.fresh)
    (hna : isAuthErr e = false) (hge : ¬(s.retries < mr)) :
    stepU mr rd s (.failed g e) =
      { s with
        flags := updFlags s.flags g
          { AttemptFlags.fresh with
            timerArmed := false
            errSeen := true
            connectionClosed := true }
        responses := s.responses ++ [502]
        socketDestroyed := true } := by
  have hng : ¬(s.genCount ≤ g) := by omega
  simp [stepU, hng, hf, hna, hge, AttemptFlags.fresh]

/-- Running the all-fail schedule from mid-session: every remaining attempt
errors with a retryable non-auth error; the session retries with linear
backoff until `maxRetries` is exhausted and then responds 502. -/
lemma runU_failSched (mr rd : Nat) :
    ∀ (errs : List WsErr) (s : UState), errs ≠ [] →
    (∀ e ∈ errs, isAuthErr e = false ∧ isTemporaryError e = true) →
    s.pendingCall = true → s.genCount = s.retries →
    s.retries + errs.length = mr + 1 →
    (runU mr rd s (failSched errs s.genCount)).genCount = mr + 1
    ∧ (runU mr rd s (failSched errs s.genCount)).responses = s.responses ++ [502]
    ∧ (runU mr rd s (failSched errs s.genCount)).socketDestroyed = true
    ∧ (runU mr rd s (failSched errs s.genCount)).delays
        = s.delays ++ (List.range' (s.retries + 1) (errs.length - 1)).map (fun n => rd * n)
    ∧ (runU mr rd s (failSched errs s.genCount)).upgradeCount = s.upgradeCount
    ∧ (runU mr rd s (failSched errs s.genCount)).pendingCall = false := by
  intro errs
  induction errs with
  | nil => intro s hne; exact absurd rfl hne
  | cons e rest ih =>
    intro s _ herrs hp hg hlen
    have he : isAuthErr e = false ∧ isTemporaryError e = true :=
      herrs e (List.mem_cons_self e rest)
    have hrun : runU mr rd s (failSched (e :: rest) s.genCount)
        = runU mr rd (stepU mr rd (stepU mr rd s .start) (.failed s.genCount e))
            (failSched rest (s.genCount + 1)) := rfl
    rw [hrun, stepU_start_pending hp]
    set s1 : UState :=
      { s with
        pendingCall := false
        genCount := s.genCount + 1
        flags := updFlags s.flags s.genCount AttemptFlags.fresh } with hs1
    have hs1g : s1.genCount = s.genCount + 1 := rfl
    have hs1f : s1.flags s.genCount = AttemptFlags.fresh := updFlags_same _ _ _
    rcases rest with _ | ⟨e', rest'⟩
    · simp only [List.length_cons, List.length_nil] at hlen
      have hge : ¬(s.retries < mr) := by omega
      rw [stepU_failed_exhausted hs1g hs1f he.1 hge]
      refine ⟨?_, ?_, ?_, ?_, ?_, ?_⟩ <;> simp only [failSched, runU] <;> simp <;> omega
    · have hlt : s.retries < mr := by
        simp [List.length_cons] at hlen
        omega
      rw [stepU_failed_retry hs1g hs1f he.1 he.2 hlt]
      set s2 : UState :=
        { s1 with
          flags := updFlags s1.flags s.genCount
            { AttemptFlags.fresh with
              timerArmed := false
              errSeen := true }
          retries := s1.retries + 1
          pendingCall := true
          delays := s1.delays ++ [rd * (s1.retries + 1)] } with hs2
      have h2p : s2.pendingCall = true := rfl
      have h2g : s2.genCount = s2.retries := by
        show s.genCount + 1 = s.retries + 1
        omega
      have h2len : s2.retries + (e' :: rest').length = mr + 1 := by
        show s.retries + 1 + (e' :: rest').length = mr + 1
        simp [List.length_cons] at hlen ⊢
        omega
      have h2errs : ∀ x ∈ (e' :: rest'), isAuthErr x = false ∧ isTemporaryError x = true :=
        fun x hx => herrs x (List.mem_cons_of_mem e hx)
      have hgeq : s.genCount + 1 = s2.genCount := rfl
      rw [hgeq]
      obtain ⟨c1, c2, c3, c4, c5, c6⟩ :=
        ih s2 (List.cons_ne_nil e' rest') h2errs h2p h2g h2len
      refine ⟨c1, ?_, c3, ?_, ?_, c6⟩
      · rw [c2]
      · rw [c4]
        show s.delays ++ [rd * (s.retries + 1)]
            ++ (List.range' (s.retries + 1 + 1) ((e' :: rest').length - 1)).map (fun n => rd * n)
          = s.delays ++ (List.range' (s.retries + 1) ((e' :: rest').length + 1 - 1)).map
              (fun n => rd * n)
        rw [show (e' :: rest').length + 1 - 1 = ((e' :: rest').length - 1) + 1 from by simp,
          List.range'_succ, List.append_assoc]
        simp
      · rw [c5]

/-- Claim C1: when every outbound attempt fails with a retryable
connection-class error before the client is upgraded, the session performs
exactly maxRetries + 1 attempts, schedules the nth retry after
retryDelay × n (linear backoff), and after the last attempt writes a single
502 status line and destroys the inbound socket, never upgrading. -/
theorem c1_retry_exhaustion (mr rd : Nat) (errs : List WsErr)
    (hlen : errs.length = mr + 1)
    (hcls : ∀ e ∈ errs, isAuthErr e = false ∧ isTemporaryError e = true) :
    (runU mr rd initU (failSched errs 0)).genCount = mr + 1
    ∧ (runU mr rd initU (failSched errs 0)).responses = [502]
    ∧ (runU mr rd initU (failSched errs 0)).socketDestroyed = true
    ∧ (runU mr rd initU (failSched errs 0)).delays
        = (List.range' 1 mr).map (fun n => rd * n)
    ∧ (runU mr rd initU (failSched errs 0)).upgradeCount = 0 := by
  have hne : errs ≠ [] := by
    intro he
    rw [he] at hlen
    simp at hlen
  have h := runU_failSched mr rd errs initU hne hcls rfl rfl (by simp [initU, hlen])
  simp only [show initU.genCount = 0 from rfl, show initU.retries = 0 from rfl,
    show initU.responses = ([] : List Nat) from rfl,
    show initU.delays = ([] : List Nat) from rfl,
    show initU.upgradeCount = 0 from rfl, List.nil_append, hlen,
    Nat.add_sub_cancel, Nat.zero_add] at h
  exact ⟨h.1, h.2.1, h.2.2.1, h.2.2.2.1, h.2.2.2.2.1⟩

/-- The concrete connection-refused error used by the C1 witness. -/
def c1Errs : List WsErr :=
  List.replicate 3 ⟨"connect ECONNREFUSED 127.0.0.1:443", some "ECONNREFUSED"⟩

/-- Witness for C1: maxRetries = 2, retryDelay = 100, three refused attempts. -/
theorem c1_witness :
    (c1Errs.length = 2 + 1)
    ∧ (∀ e ∈ c1Errs, isAuthErr e = false ∧ isTemporaryError e = true)
    ∧ ((runU 2 100 initU (failSched c1Errs 0)).genCount = 2 + 1
      ∧ (runU 2 100 initU (failSched c1Errs 0)).responses = [502]
      ∧ (runU 2 100 initU (failSched c1Errs 0)).socketDestroyed = true
      ∧ (runU 2 100 initU (failSched c1Errs 0)).delays
          = (List.range' 1 2).map (fun n => 100 * n)
      ∧ (runU 2 100 initU (failSched c1Errs 0)).upgradeCount = 0) :=
  ⟨by decide, by decide, c1_retry_exhaustion 2 100 c1Errs (by decide) (by decide)⟩

/-- Claim C2: an authentication-class outbound error (message mentioning 401
or 403) on the first attempt ends the session after exactly one attempt with
a single 401 response and a destroyed inbound socket, with no retry scheduled
and no backoff delay, for every maxRetries. -/
theorem c2_auth_error_fatal (mr rd : Nat) (e : WsErr)
    (hauth : isAuthErr e = true) :
    (runU mr rd initU [UEv.start, UEv.failed 0 e]).genCount = 1
    ∧ (runU mr rd initU [UEv.start, UEv.failed 0 e]).responses = [401]
    ∧ (runU mr rd initU [UEv.start, UEv.failed 0 e]).socketDestroyed = true
    ∧ (runU mr rd initU [UEv.start, UEv.failed 0 e]).pendingCall = false
    ∧ (runU mr rd initU [UEv.start, UEv.failed 0 e]).delays = []
    ∧ (runU mr rd initU [UEv.start, UEv.failed 0 e]).upgradeCount = 0 := by
  simp only [runU]
  rw [stepU_start_pending rfl]
  simp [stepU, updFlags, initU, AttemptFlags.fresh, hauth]

/-- Witness for C2: a 401 handshake rejection with maxRetries = 5. -/
theorem c2_witness :
    (isAuthErr ⟨"Unexpected server response: 401", none⟩ = true)
    ∧ ((runU 5 100 initU
          [UEv.start, UEv.failed 0 ⟨"Unexpected server response: 401", none⟩]).genCount = 1
      ∧ (runU 5 100 initU
          [UEv.start, UEv.failed 0 ⟨"Unexpected server response: 401", none⟩]).responses = [401]
      ∧ (runU 5 100 initU
          [UEv.start, UEv.failed 0 ⟨"Unexpected server response: 401", none⟩]).socketDestroyed
          = true
      ∧ (runU 5 100 initU
          [UEv.start, UEv.failed 0 ⟨"Unexpected server response: 401", none⟩]).pendingCall
          = false
      ∧ (runU 5 100 initU
          [UEv.start, UEv.failed 0 ⟨"Unexpected server response: 401", none⟩]).delays = []
      ∧ (runU 5 100 initU
          [UEv.start, UEv.failed 0 ⟨"Unexpected server response: 401", none⟩]).upgradeCount
          = 0) :=
  ⟨by decide, c2_auth_error_fatal 5 100 ⟨"Unexpected server response: 401", none⟩ (by decide)⟩

/-! ### Upgrade idempotency (C3)

`okFrom seen evs` captures which schedules a real `ws` client can deliver:
an attempt that has reported an error never fires `open` afterwards and
reports at most one error (`seen` accumulates the attempts that have already
errored). Open events may repeat freely. -/

def updSeen (seen : Nat → Bool) (g : Nat) : Nat → Bool :=
  fun i => if i = g then true else seen i

def okFrom (seen : Nat → Bool) : List UEv → Prop
  | [] => True
  | UEv.opened g :: rest => seen g = false ∧ okFrom seen rest
  | UEv.failed g _ :: rest => seen g = false ∧ okFrom (updSeen seen g) rest
  | _ :: rest => okFrom seen rest

/-- `seen` after consuming a schedule. -/
def seenAfter (seen : Nat → Bool) : List UEv → (Nat → Bool)
  | [] => seen
  | UEv.failed g _ :: rest => seenAfter (updSeen seen g) rest
  | _ :: rest => seenAfter seen rest

/-- An attempt that can no longer trigger the upgrade path: its handlers are
gated by `connectionClosed`, it is already upgraded, or it has errored (and
so will never fire `open` in a realistic schedule). -/
def blockedB (f : AttemptFlags) : Bool :=
  f.connectionClosed || f.isUpgraded || f.errSeen

/-- The session invariant guaranteeing at-most-one upgrade. -/
structure UInv (seen : Nat → Bool) (s : UState) : Prop where
  upgEq : s.upgradeCount = s.relayCount
  relayLe : s.relayCount ≤ 1
  pendingBlocked : s.pendingCall = true →
    ∀ g, g < s.genCount → blockedB (s.flags g) = true
  uniqueLive : ∀ g1 g2, g1 < s.genCount → g2 < s.genCount →
    blockedB (s.flags g1) = false → blockedB (s.flags g2) = false → g1 = g2
  upgradedDone : s.relayCount = 1 →
    s.pendingCall = false ∧ ∀ g, g < s.genCount → blockedB (s.flags g) = true
  armedLive : ∀ g, (s.flags g).timerArmed = true → blockedB (s.flags g) = false
  errSeenSub : ∀ g, (s.flags g).errSeen = true → seen g = true

lemma UInv_init (seen : Nat → Bool) : UInv seen initU := by
  refine ⟨rfl, by decide, ?_, ?_, ?_, ?_, ?_⟩
  · intro _ g hg
    exact absurd hg (Nat.not_lt_zero g)
  · intro g1 g2 hg1
    exact absurd hg1 (Nat.not_lt_zero g1)
  · intro h
    exact absurd h (by decide)
  · intro g harm
    exact absurd harm (by simp [initU])
  · intro g hseen
    exact absurd hseen (by simp [initU])

lemma UInv_start {mr rd : Nat} {seen : Nat → Bool} {s : UState}
    (inv : UInv seen s) : UInv seen (stepU mr rd s .start) := by
  by_cases hp : s.pendingCall = true
  · rw [stepU_start_pending hp]
    refine ⟨inv.upgEq, inv.relayLe, ?_, ?_, ?_, ?_, ?_⟩ <;> (try dsimp only)
    · intro h
      simp at h
    · intro g1 g2 h1 h2 hb1 hb2
      have hblocked : ∀ g', g' < s.genCount + 1 →
          blockedB (updFlags s.flags s.genCount AttemptFlags.fresh g') = false →
          g' = s.genCount := by
        intro g' hg' hb'
        rcases Nat.lt_succ_iff_lt_or_eq.mp hg' with hlt | heq
        · rw [updFlags_other _ _ _ (Nat.ne_of_lt hlt)] at hb'
          exact absurd (inv.pendingBlocked hp g' hlt) (by simp [hb'])
        · exact heq
      rw [hblocked g1 h1 hb1, hblocked g2 h2 hb2]
    · intro hr
      exact absurd (inv.upgradedDone hr).1 (by simp [hp])
    · intro g harm
      by_cases hg : g = s.genCount
      · subst hg
        rw [updFlags_same]
        decide
      · rw [updFlags_other _ _ _ hg] at harm ⊢
        exact inv.armedLive g harm
    · intro g hseen
      by_cases hg : g = s.genCount
      · subst hg
        rw [updFlags_same] at hseen
        exact absurd hseen (by decide)
      · rw [updFlags_other _ _ _ hg] at hseen
        exact inv.errSeenSub g hseen
  · have hid : stepU mr rd s .start = s := by
      simp [stepU, hp]
    rw [hid]
    exact inv

lemma UInv_sockErr {mr rd : Nat} {seen : Nat → Bool} {s : UState} {g : Nat}
    (inv : UInv seen s) : UInv seen (stepU mr rd s (.sockErr g)) := by
  by_cases hg : s.genCount ≤ g
  · have hid : stepU mr rd s (.sockErr g) = s := by
      simp [stepU, hg]
    rw [hid]
    exact inv
  · by_cases hc : (s.flags g).connectionClosed = true
    · have hid : stepU mr rd s (.sockErr g) = s := by
        simp [stepU, hg, hc]
      rw [hid]
      exact inv
    · have hstep : stepU mr rd s (.sockErr g) =
          { s with
            flags := updFlags s.flags g
              { s.flags g with
                timerArmed := false
                connectionClosed := true } } := by
        simp [stepU, hg, hc]
      rw [hstep]
      refine ⟨inv.upgEq, inv.relayLe, ?_, ?_, ?_, ?_, ?_⟩ <;> (try dsimp only)
      · intro hp g' hg'
        by_cases hgg : g' = g
        · subst hgg
          rw [updFlags_same]
          simp [blockedB]
        · rw [updFlags_other _ _ _ hgg]
          exact inv.pendingBlocked hp g' hg'
      · intro g1 g2 h1 h2 hb1 hb2
        have hb1' : blockedB (s.flags g1) = false := by
          by_cases hgg : g1 = g
          · subst hgg
            rw [updFlags_same] at hb1
            simp [blockedB] at hb1
          · rwa [updFlags_other _ _ _ hgg] at hb1
        have hb2' : blockedB (s.flags g2) = false := by
          by_cases hgg : g2 = g
          · subst hgg
            rw [updFlags_same] at hb2
            simp [blockedB] at hb2
          · rwa [updFlags_other _ _ _ hgg] at hb2
        exact inv.uniqueLive g1 g2 h1 h2 hb1' hb2'
      · intro hr
        obtain ⟨hpf, hall⟩ := inv.upgradedDone hr
        refine ⟨hpf, ?_⟩
        intro g' hg'
        by_cases hgg : g' = g
        · subst hgg
          rw [updFlags_same]
          simp [blockedB]
        · rw [updFlags_other _ _ _ hgg]
          exact hall g' hg'
      · intro g' harm
        by_cases hgg : g' = g
        · subst hgg
          rw [updFlags_same] at harm
          simp at harm
        · rw [updFlags_other _ _ _ hgg] at harm ⊢
          exact inv.armedLive g' harm
      · intro g' hseen
        by_cases hgg : g' = g
        · rw [hgg, updFlags_same] at hseen
          rw [hgg]
          exact inv.errSeenSub _ hseen
        · rw [updFlags_other _ _ _ hgg] at hseen
          exact inv.errSeenSub g' hseen

lemma UInv_mono_seen {seen seen' : Nat → Bool} {s : UState} (inv : UInv seen s)
    (hmono : ∀ i, seen i = true → seen' i = true) : UInv seen' s :=
  ⟨inv.upgEq, inv.relayLe, inv.pendingBlocked, inv.uniqueLive, inv.upgradedDone,
    inv.armedLive, fun g h => hmono g (inv.errSeenSub g h)⟩

/-- Replacing the flags of one attempt by a blocked, disarmed record (leaving
counters, pending flag and generation count unchanged) preserves the
invariant. -/
lemma UInv_blockG {seen seen' : Nat → Bool} {s s' : UState} {g : Nat}
    {f' : AttemptFlags} (inv : UInv seen s)
    (hup : s'.upgradeCount = s.upgradeCount) (hrel : s'.relayCount = s.relayCount)
    (hpen : s'.pendingCall = s.pendingCall) (hgen : s'.genCount = s.genCount)
    (hfl : s'.flags = updFlags s.flags g f')
    (hblocked : blockedB f' = true) (harm' : f'.timerArmed = false)
    (herrsub : f'.errSeen = true → seen' g = true)
    (hmono : ∀ i, seen i = true → seen' i = true) : UInv seen' s' := by
  refine ⟨by rw [hup, hrel, inv.upgEq], by rw [hrel]; exact inv.relayLe,
    ?_, ?_, ?_, ?_, ?_⟩
  · intro hp g' hg'
    rw [hpen] at hp
    rw [hgen] at hg'
    rw [hfl]
    by_cases hgg : g' = g
    · rw [hgg, updFlags_same]
      exact hblocked
    · rw [updFlags_other _ _ _ hgg]
      exact inv.pendingBlocked hp g' hg'
  · intro g1 g2 h1 h2 hb1 hb2
    rw [hgen] at h1 h2
    rw [hfl] at hb1 hb2
    have hn1 : g1 ≠ g := by
      intro he
      rw [he, updFlags_same] at hb1
      rw [hblocked] at hb1
      simp at hb1
    have hn2 : g2 ≠ g := by
      intro he
      rw [he, updFlags_same] at hb2
      rw [hblocked] at hb2
      simp at hb2
    rw [updFlags_other _ _ _ hn1] at hb1
    rw [updFlags_other _ _ _ hn2] at hb2
    exact inv.uniqueLive g1 g2 h1 h2 hb1 hb2
  · intro hr
    rw [hrel] at hr
    obtain ⟨hpf, hall⟩ := inv.upgradedDone hr
    refine ⟨by rw [hpen]; exact hpf, ?_⟩
    intro g' hg'
    rw [hgen] at hg'
    rw [hfl]
    by_cases hgg : g' = g
    · rw [hgg, updFlags_same]
      exact hblocked
    · rw [updFlags_other _ _ _ hgg]
      exact hall g' hg'
  · intro g' ha
    rw [hfl] at ha ⊢
    by_cases hgg : g' = g
    · rw [hgg, updFlags_same] at ha
      rw [harm'] at ha
      exact absurd ha (by decide)
    · rw [updFlags_other _ _ _ hgg] at ha ⊢
      exact inv.armedLive g' ha
  · intro g' hes
    rw [hfl] at hes
    by_cases hgg : g' = g
    · rw [hgg, updFlags_same] at hes
      rw [hgg]
      exact herrsub hes
    · rw [updFlags_other _ _ _ hgg] at hes
      exact hmono g' (inv.errSeenSub g' hes)

/-- Scheduling a retry: the failing attempt becomes blocked and the pending
flag is set; requires the failing attempt to have been the unique live one. -/
lemma UInv_retryG {seen seen' : Nat → Bool} {s s' : UState} {g : Nat}
    {f' : AttemptFlags} (inv : UInv seen s)
    (hup : s'.upgradeCount = s.upgradeCount) (hrel : s'.relayCount = s.relayCount)
    (hpen : s'.pendingCall = true) (hgen : s'.genCount = s.genCount)
    (hfl : s'.flags = updFlags s.flags g f')
    (hglt : g < s.genCount) (hlive : blockedB (s.flags g) = false)
    (hblocked : blockedB f' = true) (harm' : f'.timerArmed = false)
    (herrsub : f'.errSeen = true → seen' g = true)
    (hmono : ∀ i, seen i = true → seen' i = true) : UInv seen' s' := by
  have hothers : ∀ g', g' < s.genCount → g' ≠ g → blockedB (s.flags g') = true := by
    intro g' hg' hgg
    cases hb : blockedB (s.flags g') with
    | true => rfl
    | false => exact absurd (inv.uniqueLive g' g hg' hglt hb hlive) hgg
  refine ⟨by rw [hup, hrel, inv.upgEq], by rw [hrel]; exact inv.relayLe,
    ?_, ?_, ?_, ?_, ?_⟩
  · intro _ g' hg'
    rw [hgen] at hg'
    rw [hfl]
    by_cases hgg : g' = g
    · rw [hgg, updFlags_same]
      exact hblocked
    · rw [updFlags_other _ _ _ hgg]
      exact hothers g' hg' hgg
  · intro g1 g2 h1 h2 hb1 hb2
    rw [hgen] at h1 h2
    rw [hfl] at hb1 hb2
    have hn1 : g1 ≠ g := by
      intro he
      rw [he, updFlags_same] at hb1
      rw [hblocked] at hb1
      simp at hb1
    have hn2 : g2 ≠ g := by
      intro he
      rw [he, updFlags_same] at hb2
      rw [hblocked] at hb2
      simp at hb2
    rw [updFlags_other _ _ _ hn1] at hb1
    rw [updFlags_other _ _ _ hn2] at hb2
    exact inv.uniqueLive g1 g2 h1 h2 hb1 hb2
  · intro hr
    rw [hrel] at hr
    exact absurd ((inv.upgradedDone hr).2 g hglt)
      (by rw [hlive]; exact Bool.false_ne_true)
  · intro g' ha
    rw [hfl] at ha ⊢
    by_cases hgg : g' = g
    · rw [hgg, updFlags_same] at ha
      rw [harm'] at ha
      exact absurd ha (by decide)
    · rw [updFlags_other _ _ _ hgg] at ha ⊢
      exact inv.armedLive g' ha
  · intro g' hes
    rw [hfl] at hes
    by_cases hgg : g' = g
    · rw [hgg, updFlags_same] at hes
      rw [hgg]
      exact herrsub hes
    · rw [updFlags_other _ _ _ hgg] at hes
      exact hmono g' (inv.errSeenSub g' hes)

/-- Performing the upgrade: the open attempt was live, so the session had no
prior relay, no pending retry, and every other attempt blocked; afterwards
exactly one relay exists and everything is blocked. -/
lemma UInv_upgradeG {seen : Nat → Bool} {s s' : UState} {g : Nat}
    {f' : AttemptFlags} (inv : UInv seen s)
    (hup : s'.upgradeCount = s.upgradeCount + 1)
    (hrel : s'.relayCount = s.relayCount + 1)
    (hpen : s'.pendingCall = s.pendingCall) (hgen : s'.genCount = s.genCount)
    (hfl : s'.flags = updFlags s.flags g f')
    (hglt : g < s.genCount) (hlive : blockedB (s.flags g) = false)
    (hblocked : blockedB f' = true) (harm' : f'.timerArmed = false)
    (herr' : f'.errSeen = false) : UInv seen s' := by
  have hpf : s.pendingCall = false := by
    cases hp : s.pendingCall with
    | false => rfl
    | true =>
      exact absurd (inv.pendingBlocked hp g hglt)
        (by rw [hlive]; exact Bool.false_ne_true)
  have hr0 : s.relayCount = 0 := by
    rcases Nat.le_one_iff_eq_zero_or_eq_one.mp inv.relayLe with h0 | h1
    · exact h0
    · exact absurd ((inv.upgradedDone h1).2 g hglt)
        (by rw [hlive]; exact Bool.false_ne_true)
  have hothers : ∀ g', g' < s.genCount → g' ≠ g → blockedB (s.flags g') = true := by
    intro g' hg' hgg
    cases hb : blockedB (s.flags g') with
    | true => rfl
    | false => exact absurd (inv.uniqueLive g' g hg' hglt hb hlive) hgg
  have hallpost : ∀ g', g' < s'.genCount → blockedB (s'.flags g') = true := by
    intro g' hg'
    rw [hgen] at hg'
    rw [hfl]
    by_cases hgg : g' = g
    · rw [hgg, updFlags_same]
      exact hblocked
    · rw [updFlags_other _ _ _ hgg]
      exact hothers g' hg' hgg
  refine ⟨by rw [hup, hrel, inv.upgEq], by rw [hrel, hr0], ?_, ?_, ?_, ?_, ?_⟩
  · intro hp
    rw [hpen, hpf] at hp
    exact absurd hp Bool.false_ne_true
  · intro g1 g2 h1 h2 hb1 hb2
    exact absurd (hallpost g1 h1) (by rw [hb1]; exact Bool.false_ne_true)
  · intro _
    exact ⟨by rw [hpen, hpf], hallpost⟩
  · intro g' ha
    rw [hfl] at ha ⊢
    by_cases hgg : g' = g
    · rw [hgg, updFlags_same] at ha
      rw [harm'] at ha
      exact absurd ha (by decide)
    · rw [updFlags_other _ _ _ hgg] at ha ⊢
      exact inv.armedLive g' ha
  · intro g' hes
    rw [hfl] at hes
    by_cases hgg : g' = g
    · rw [hgg, updFlags_same] at hes
      rw [herr'] at hes
      exact absurd hes (by decide)
    · rw [updFlags_other _ _ _ hgg] at hes
      exact inv.errSeenSub g' hes

lemma UInv_opened {mr rd : Nat} {seen : Nat → Bool} {s : UState} {g : Nat}
    (inv : UInv seen s) (hseen : seen g = false) :
    UInv seen (stepU mr rd s (.opened g)) := by
  by_cases hga : s.genCount ≤ g
  · have hid : stepU mr rd s (.opened g) = s := by
      simp [stepU, hga]
    rw [hid]
    exact inv
  · have hglt : g < s.genCount := Nat.lt_of_not_le hga
    cases hc : (s.flags g).connectionClosed with
    | true =>
      have hid : stepU mr rd s (.opened g) = s := by
        simp [stepU, hga, hc]
      rw [hid]
      exact inv
    | false =>
      have herr : (s.flags g).errSeen = false := by
        cases he : (s.flags g).errSeen with
        | false => rfl
        | true => exact absurd (inv.errSeenSub g he) (by simp [hseen])
      cases hu : (s.flags g).isUpgraded with
      | true =>
        have hstep : stepU mr rd s (.opened g)
            = { s with
                flags := updFlags s.flags g
                  { s.flags g with
                    timerArmed := false } } := by
          simp [stepU, hga, hc, hu]
        rw [hstep]
        exact UInv_blockG inv rfl rfl rfl rfl rfl
          (by simp [blockedB, hu]) rfl
          (fun hes => inv.errSeenSub g hes) (fun _ h => h)
      | false =>
        have hlive : blockedB (s.flags g) = false := by
          simp [blockedB, hc, hu, herr]
        have hstep : stepU mr rd s (.opened g)
            = { s with
                flags := updFlags s.flags g
                  { s.flags g with
                    timerArmed := false
                    isUpgraded := true
                    hasClientWs := true }
                upgradeCount := s.upgradeCount + 1
                relayCount := s.relayCount + 1 } := by
          simp [stepU, hga, hc, hu]
        rw [hstep]
        exact UInv_upgradeG inv rfl rfl rfl rfl rfl hglt hlive
          (by simp [blockedB]) rfl herr

lemma UInv_failed {mr rd : Nat} {seen : Nat → Bool} {s : UState} {g : Nat}
    {e : WsErr} (inv : UInv seen s) (hseen : seen g = false) :
    UInv (updSeen seen g) (stepU mr rd s (.failed g e)) := by
  have hmono : ∀ i, seen i = true → updSeen seen g i = true := by
    intro i h
    by_cases hig : i = g
    · simp [updSeen, hig]
    · simp [updSeen, hig, h]
  have hgset : updSeen seen g g = true := by
    simp [updSeen]
  by_cases hga : s.genCount ≤ g
  · have hid : stepU mr rd s (.failed g e) = s := by
      simp [stepU, hga]
    rw [hid]
    exact UInv_mono_seen inv hmono
  · have hglt : g < s.genCount := Nat.lt_of_not_le hga
    cases hc : (s.flags g).connectionClosed with
    | true =>
      have hid : stepU mr rd s (.failed g e) = s := by
        simp [stepU, hga, hc]
      rw [hid]
      exact UInv_mono_seen inv hmono
    | false =>
      have herr : (s.flags g).errSeen = false := by
        cases he : (s.flags g).errSeen with
        | false => rfl
        | true => exact absurd (inv.errSeenSub g he) (by simp [hseen])
      cases ha : isAuthErr e with
      | true =>
        cases hu : (s.flags g).isUpgraded with
        | false =>
          have hstep : stepU mr rd s (.failed g e)
              = { s with
                  flags := updFlags s.flags g
                    { s.flags g with
                      timerArmed := false
                      errSeen := true
                      connectionClosed := true }
                  responses := s.responses ++ [401]
                  socketDestroyed := true } := by
            simp [stepU, hga, hc, ha, hu]
          rw [hstep]
          exact UInv_blockG inv rfl rfl rfl rfl rfl
            (by simp [blockedB]) rfl (fun _ => hgset) hmono
        | true =>
          have hstep : stepU mr rd s (.failed g e)
              = { s with
                  flags := updFlags s.flags g
                    { s.flags g with
                      timerArmed := false
                      errSeen := true
                      connectionClosed := true } } := by
            simp [stepU, hga, hc, ha, hu]
          rw [hstep]
          exact UInv_blockG inv rfl rfl rfl rfl rfl
            (by simp [blockedB]) rfl (fun _ => hgset) hmono
      | false =>
        cases hu : (s.flags g).isUpgraded with
        | true =>
          have hstep : stepU mr rd s (.failed g e)
              = { s with
                  flags := updFlags s.flags g
                    { s.flags g with
                      timerArmed := false
                      errSeen := true
                      connectionClosed := true } } := by
            simp [stepU, hga, hc, ha, hu]
          rw [hstep]
          exact UInv_blockG inv rfl rfl rfl rfl rfl
            (by simp [blockedB]) rfl (fun _ => hgset) hmono
        | false =>
          have hlive : blockedB (s.flags g) = false := by
            simp [blockedB, hc, hu, herr]
          cases htd : isTemporaryError e && decide (s.retries < mr) with
          | true =>
            have hstep : stepU mr rd s (.failed g e)
                = { s with
                    flags := updFlags s.flags g
                      { s.flags g with
                        timerArmed := false
                        errSeen := true }
                    retries := s.retries + 1
                    pendingCall := true
                    delays := s.delays ++ [rd * (s.retries + 1)] } := by
              simp [stepU, hga, hc, ha, hu, htd]
            rw [hstep]
            exact UInv_retryG inv rfl rfl rfl rfl rfl hglt hlive
              (by simp [blockedB]) rfl (fun _ => hgset) hmono
          | false =>
            have hstep : stepU mr rd s (.failed g e)
                = { s with
                    flags := updFlags s.flags g
                      { s.flags g with
                        timerArmed := false
                        errSeen := true
                        connectionClosed := true }
                    responses := s.responses ++ [502]
                    socketDestroyed := true } := by
              simp [stepU, hga, hc, ha, hu, htd]
            rw [hstep]
            exact UInv_blockG inv rfl rfl rfl rfl rfl
              (by simp [blockedB]) rfl (fun _ => hgset) hmono

lemma UInv_timedOut {mr rd : Nat} {seen : Nat → Bool} {s : UState} {g : Nat}
    (inv : UInv seen s) : UInv seen (stepU mr rd s (.timedOut g)) := by
  by_cases hga : s.genCount ≤ g
  · have hid : stepU mr rd s (.timedOut g) = s := by
      simp [stepU, hga]
    rw [hid]
    exact inv
  · have hglt : g < s.genCount := Nat.lt_of_not_le hga
    cases harm : (s.flags g).timerArmed with
    | false =>
      have hid : stepU mr rd s (.timedOut g) = s := by
        simp [stepU, hga, harm]
      rw [hid]
      exact inv
    | true =>
      have hlive : blockedB (s.flags g) = false := inv.armedLive g harm
      have hparts := hlive
      simp only [blockedB, Bool.or_eq_false_iff] at hparts
      obtain ⟨⟨hc, hu⟩, herr⟩ := hparts
      by_cases hrl : s.retries < mr
      · have hstep : stepU mr rd s (.timedOut g)
            = { s with
                flags := updFlags s.flags g
                  { s.flags g with
                    timerArmed := false
                    connectionClosed := true }
                retries := s.retries + 1
                pendingCall := true
                delays := s.delays ++ [rd * (s.retries + 1)] } := by
          simp [stepU, hga, harm, hc, hu, hrl]
        rw [hstep]
        exact UInv_retryG inv rfl rfl rfl rfl rfl hglt hlive
          (by simp [blockedB]) rfl
          (fun hes => inv.errSeenSub g hes) (fun _ h => h)
      · have hstep : stepU mr rd s (.timedOut g)
            = { s with
                flags := updFlags s.flags g
                  { s.flags g with
                    timerArmed := false
                    connectionClosed := true }
                responses := s.responses ++ [504]
                socketDestroyed := true } := by
          simp [stepU, hga, harm, hc, hu, hrl]
        rw [hstep]
        exact UInv_blockG inv rfl rfl rfl rfl rfl
          (by simp [blockedB]) rfl
          (fun hes => inv.errSeenSub g hes) (fun _ h => h)

/-- The invariant is preserved along every realistic schedule. -/
lemma UInv_run (mr rd : Nat) :
    ∀ (evs : List UEv) (seen : Nat → Bool) (s : UState),
    okFrom seen evs → UInv seen s →
    UInv (seenAfter seen evs) (runU mr rd s evs) := by
  intro evs
  induction evs with
  | nil =>
    intro seen s _ inv
    exact inv
  | cons ev rest ih =>
    intro seen s hok inv
    cases ev with
    | start =>
      exact ih seen _ hok (UInv_start inv)
    | opened g =>
      obtain ⟨hs, hok'⟩ := hok
      exact ih seen _ hok' (UInv_opened inv hs)
    | failed g e =>
      obtain ⟨hs, hok'⟩ := hok
      exact ih (updSeen seen g) _ hok' (UInv_failed inv hs)
    | timedOut g =>
      exact ih seen _ hok (UInv_timedOut inv)
    | sockErr g =>
      exact ih seen _ hok (UInv_sockErr inv)

/-- Claim C3: along every realistic schedule (an attempt that errored never
fires open afterwards and errors at most once) the client upgrade is
performed at most once and at most one relay session is constructed; and in
the two double-open races named by the claim — a repeated open on the same
attempt, and a timeout-triggered retry racing a stale late open of the timed
out attempt — exactly one upgrade and one relay session happen. -/
theorem c3_upgrade_idempotent (mr rd : Nat) (hmr : 1 ≤ mr) (evs : List UEv)
    (hok : okFrom (fun _ => false) evs) :
    ((runU mr rd initU evs).upgradeCount ≤ 1
      ∧ (runU mr rd initU evs).relayCount ≤ 1)
    ∧ ((runU mr rd initU [UEv.start, UEv.opened 0, UEv.opened 0]).upgradeCount = 1
      ∧ (runU mr rd initU [UEv.start, UEv.opened 0, UEv.opened 0]).relayCount = 1)
    ∧ ((runU mr rd initU
          [UEv.start, UEv.timedOut 0, UEv.start, UEv.opened 0, UEv.opened 1]).upgradeCount = 1
      ∧ (runU mr rd initU
          [UEv.start, UEv.timedOut 0, UEv.start, UEv.opened 0, UEv.opened 1]).relayCount
          = 1) := by
  refine ⟨?_, ?_, ?_⟩
  · have inv := UInv_run mr rd evs (fun _ => false) initU hok (UInv_init _)
    exact ⟨inv.upgEq ▸ inv.relayLe, inv.relayLe⟩
  · constructor <;>
      simp [runU, stepU, initU, updFlags, AttemptFlags.fresh]
  · have h0 : 0 < mr := hmr
    constructor <;>
      simp [runU, stepU, initU, updFlags, AttemptFlags.fresh, h0]

/-- Witness for C3 at a concrete schedule. -/
theorem c3_witness :
    ((1 : Nat) ≤ 1)
    ∧ okFrom (fun _ => false) [UEv.start, UEv.opened 0]
    ∧ (((runU 1 50 initU [UEv.start, UEv.opened 0]).upgradeCount ≤ 1
        ∧ (runU 1 50 initU [UEv.start, UEv.opened 0]).relayCount ≤ 1)
      ∧ ((runU 1 50 initU [UEv.start, UEv.opened 0, UEv.opened 0]).upgradeCount = 1
        ∧ (runU 1 50 initU [UEv.start, UEv.opened 0, UEv.opened 0]).relayCount = 1)
      ∧ ((runU 1 50 initU
            [UEv.start, UEv.timedOut 0, UEv.start, UEv.opened 0, UEv.opened 1]).upgradeCount
            = 1
        ∧ (runU 1 50 initU
            [UEv.start, UEv.timedOut 0, UEv.start, UEv.opened 0, UEv.opened 1]).relayCount
            = 1)) :=
  ⟨by decide, ⟨rfl, trivial⟩,
    c3_upgrade_idempotent 1 50 (by decide) [UEv.start, UEv.opened 0] ⟨rfl, trivial⟩⟩

/-! ## Upgrade entry point (`WebSocketProxy.setupWebSocketUpgrade`) -/

/-- The `server.on('upgrade')` handler of the routed proxy: resolve the
target for the pathname; a falsy target gets a 404 status line and a
destroyed socket, otherwise `handleWebSocketUpgrade` runs. -/
def upgradeEntry (routes : List (String × String)) (dflt : Option String)
    (pathname : String) (mr rd : Nat) (evs : List UEv) : UState :=
  if jsTruthyS (getTargetForPath routes dflt pathname) then runU mr rd initU evs
  else
    { initU with
      responses := [404]
      socketDestroyed := true
      pendingCall := false }

lemma stepU_responses (mr rd : Nat) (s : UState) (ev : UEv) :
    (stepU mr rd s ev).responses = s.responses
    ∨ (stepU mr rd s ev).responses = s.responses ++ [401]
    ∨ (stepU mr rd s ev).responses = s.responses ++ [502]
    ∨ (stepU mr rd s ev).responses = s.responses ++ [504] := by
  cases ev <;> simp only [stepU] <;> (repeat' split) <;> simp

lemma runU_responses_subset (mr rd : Nat) :
    ∀ (evs : List UEv) (s : UState) (st : Nat),
    st ∈ (runU mr rd s evs).responses →
    st ∈ s.responses ∨ st = 401 ∨ st = 502 ∨ st = 504 := by
  intro evs
  induction evs with
  | nil =>
    intro s st h
    exact Or.inl h
  | cons ev rest ih =>
    intro s st h
    rcases ih (stepU mr rd s ev) st h with hmem | hst
    · rcases stepU_responses mr rd s ev with he | he | he | he <;> rw [he] at hmem
      · exact Or.inl hmem
      · rcases List.mem_append.mp hmem with h1 | h1
        · exact Or.inl h1
        · simp at h1
          exact Or.inr (Or.inl h1)
      · rcases List.mem_append.mp hmem with h1 | h1
        · exact Or.inl h1
        · simp at h1
          exact Or.inr (Or.inr (Or.inl h1))
      · rcases List.mem_append.mp hmem with h1 | h1
        · exact Or.inl h1
        · simp at h1
          exact Or.inr (Or.inr (Or.inr h1))
    · exact Or.inr hst

/-- Claim C7, counterexample: when route resolution yields no target and no
default, the proxy writes a 404 status line — not one of 502, 504, 401 —
before destroying the socket. -/
theorem c7_counterexample :
    (upgradeEntry [] none "/x" 3 100 []).responses = [404]
    ∧ (upgradeEntry [] none "/x" 3 100 []).socketDestroyed = true
    ∧ ¬((404 : Nat) = 502 ∨ (404 : Nat) = 504 ∨ (404 : Nat) = 401) := by
  decide

/-- Claim C7 (amended): every status line a session writes is one of 401,
502, 504 or 404, and when no target resolves the failure is surfaced
explicitly as a 404 status line before the inbound socket is destroyed. -/
theorem c7_failure_statuses (routes : List (String × String))
    (dflt : Option String) (pathname : String) (mr rd : Nat) (evs : List UEv) :
    (∀ st ∈ (upgradeEntry routes dflt pathname mr rd evs).responses,
      st = 401 ∨ st = 502 ∨ st = 504 ∨ st = 404)
    ∧ (jsTruthyS (getTargetForPath routes dflt pathname) = false →
        (upgradeEntry routes dflt pathname mr rd evs).responses = [404]
        ∧ (upgradeEntry routes dflt pathname mr rd evs).socketDestroyed = true) := by
  constructor
  · intro st hst
    by_cases ht : jsTruthyS (getTargetForPath routes dflt pathname) = true
    · rw [upgradeEntry, if_pos ht] at hst
      rcases runU_responses_subset mr rd evs initU st hst with h0 | h
      · simp [initU] at h0
      · tauto
    · rw [upgradeEntry, if_neg ht] at hst
      simp at hst
      simp [hst]
  · intro ht
    have htn : ¬(jsTruthyS (getTargetForPath routes dflt pathname) = true) := by
      simp [ht]
    rw [upgradeEntry, if_neg htn]
    exact ⟨rfl, rfl⟩

/-- Witness for C7 at concrete inputs: an auth failure writes 401, which the
theorem certifies to be among the allowed statuses. -/
theorem c7_witness :
    (401 ∈ (upgradeEntry [("/ws", "wss://api.example")] none "/ws" 0 0
        [UEv.start, UEv.failed 0 ⟨"Unexpected server response: 401", none⟩]).responses)
    ∧ ((401 : Nat) = 401 ∨ (401 : Nat) = 502 ∨ (401 : Nat) = 504
        ∨ (401 : Nat) = 404) :=
  ⟨by decide,
    (c7_failure_statuses [("/ws", "wss://api.example")] none "/ws" 0 0
      [UEv.start, UEv.failed 0 ⟨"Unexpected server response: 401", none⟩]).1
      401 (by decide)⟩

/-! ## Relay Session (`WebSocketProxy.establishWebSocketProxy` and the
simpler `Proxy.establishWebSocketProxy`)

Both versions share the same structure; they differ only in the payload
passed to `send` (`data` verbatim in the routed proxy, `data.toString()` in
the simple proxy), captured by the `stringify` flag. WebSocket ready states
use the ws numbering: 0 connecting, 1 open, 2 closing, 3 closed. A `close`
event on a side means that side just reached the closed state; calling
`close` on an open socket records the call and moves it to closing. -/

inductive WsData where
  | bin : List Nat → WsData
  | txt : String → WsData
deriving DecidableEq

/-- Models `data.toString()`: exact on text frames and on ASCII buffers
(non-ASCII bytes go through UTF-8 decoding, modelled as the replacement
character; the claims only exercise ASCII). -/
def dataToString : WsData → String
  | .txt s => s
  | .bin l => String.mk (l.map (fun b => if b < 128 then Char.ofNat b else '�'))

structure PeerConn where
  readyState : Nat
  sent : List WsData
  closeCalls : List (Nat × String)
  pings : Nat
deriving DecidableEq

structure RState where
  isProxyActive : Bool
  cleanups : Nat
  clientToTarget : Nat
  targetToClient : Nat
  warnings : Nat
  client : PeerConn
  target : PeerConn
  timerOn : Bool
deriving DecidableEq

def initPeer : PeerConn where
  readyState := 1
  sent := []
  closeCalls := []
  pings := 0

/-- Relay state just after `establishWebSocketProxy` sets up: both sides
open, active, ping interval armed, counters zero. -/
def initR : RState where
  isProxyActive := true
  cleanups := 0
  clientToTarget := 0
  targetToClient := 0
  warnings := 0
  client := initPeer
  target := initPeer
  timerOn := true

/-- The `cleanup` closure: logs duration and counters and clears the active
flag, only the first time. `cleanups` counts how often the log body ran. -/
def cleanupR (s : RState) : RState :=
  if s.isProxyActive then
    { s with
      cleanups := s.cleanups + 1
      isProxyActive := false }
  else s

/-- `ws.close(code, reason)`: records the call and moves an open socket to
the closing state. -/
def closeSock (p : PeerConn) (code : Nat) (reason : String) : PeerConn :=
  { p with
    closeCalls := p.closeCalls ++ [(code, reason)]
    readyState := if p.readyState = 1 then 2 else p.readyState }

/-- JS `code || 1000` on a close code. -/
def jsCloseCode (code : Nat) : Nat := if code = 0 then 1000 else code

/-- JS `reason ? reason.toString() : 'no reason'` on a close reason string. -/
def jsCloseReason (reason : String) : String :=
  if reason = "" then "no reason" else reason

inductive REv where
  | msgFromClient (d : WsData)
  | msgFromTarget (d : WsData)
  | clientClose (code : Nat) (reason : String)
  | targetClose (code : Nat) (reason : String)
  | clientErr (e : WsErr)
  | targetErr (e : WsErr)
  | pingTick
deriving DecidableEq

/-- Payload actually handed to `send`: the routed proxy forwards `data`
verbatim, the simple proxy sends `data.toString()`. -/
def sendPayload (stringify : Bool) (d : WsData) : WsData :=
  if stringify then .txt (dataToString d) else d

/-- One event of the relay session, translated handler by handler from
`establishWebSocketProxy`. -/
def relayStep (stringify : Bool) (s : RState) : REv → RState
  | .msgFromClient d =>
    if !s.isProxyActive then s
    else if s.target.readyState ≠ 1 then { s with warnings := s.warnings + 1 }
    else
      { s with
        target := { s.target with sent := s.target.sent ++ [sendPayload stringify d] }
        clientToTarget := s.clientToTarget + 1 }
  | .msgFromTarget d =>
    if !s.isProxyActive then s
    else if s.client.readyState ≠ 1 then { s with warnings := s.warnings + 1 }
    else
      { s with
        client := { s.client with sent := s.client.sent ++ [sendPayload stringify d] }
        targetToClient := s.targetToClient + 1 }
  | .clientClose code reason =>
    let s1 := cleanupR { s with client := { s.client with readyState := 3 } }
    if s1.target.readyState = 1 then
      { s1 with target := closeSock s1.target (jsCloseCode code) (jsCloseReason reason) }
    else s1
  | .targetClose code reason =>
    let s1 := cleanupR { s with target := { s.target with readyState := 3 } }
    if s1.client.readyState = 1 then
      { s1 with client := closeSock s1.client (jsCloseCode code) (jsCloseReason reason) }
    else s1
  | .clientErr _ =>
    let s1 := cleanupR s
    if s1.target.readyState = 1 then
      { s1 with target := closeSock s1.target 1011 "Client connection error" }
    else s1
  | .targetErr e =>
    let s1 := cleanupR s
    if s1.client.readyState = 1 then
      { s1 with
        client := closeSock s1.client
          (if e.code == some "ECONNRESET" then 1006
           else if e.code == some "ETIMEDOUT" then 1001 else 1011)
          ("Target error: " ++ e.msg) }
    else s1
  | .pingTick =>
    if !s.timerOn then s
    else if !s.isProxyActive then { s with timerOn := false }
    else
      let s1 :=
        if s.target.readyState = 1 then
          { s with target := { s.target with pings := s.target.pings + 1 } }
        else s
      if s1.client.readyState = 1 then
        { s1 with client := { s1.client with pings := s1.client.pings + 1 } }
      else s1

def runRelay (stringify : Bool) : RState → List REv → RState
  | s, [] => s
  | s, ev :: evs => runRelay stringify (relayStep stringify s ev) evs

/-! ### Relay lemmas -/

lemma cleanupR_quantity (s : RState) :
    (cleanupR s).cleanups + (if (cleanupR s).isProxyActive then 1 else 0)
    = s.cleanups + (if s.isProxyActive then 1 else 0) := by
  unfold cleanupR
  split <;> simp_all

lemma relayStep_quantity (st : Bool) (s : RState) (ev : REv) :
    (relayStep st s ev).cleanups
        + (if (relayStep st s ev).isProxyActive then 1 else 0)
    = s.cleanups + (if s.isProxyActive then 1 else 0) := by
  cases ev <;> simp only [relayStep] <;> (repeat' split) <;>
    simp_all [cleanupR_quantity, cleanupR]

lemma runRelay_quantity (st : Bool) :
    ∀ (evs : List REv) (s : RState),
    (runRelay st s evs).cleanups
        + (if (runRelay st s evs).isProxyActive then 1 else 0)
    = s.cleanups + (if s.isProxyActive then 1 else 0) := by
  intro evs
  induction evs with
  | nil => intro s; rfl
  | cons ev rest ih =>
    intro s
    rw [runRelay, ih, relayStep_quantity]

/-- Claim C5, counterexample: a close with an empty reason is propagated to
the other side as the text no reason, not as the same (empty) reason, and a
zero close code as 1000, so close propagation is not always with the same
code and reason. -/
theorem c5_counterexample :
    (runRelay false initR [REv.clientClose 0 ""]).target.closeCalls
      = [(1000, "no reason")]
    ∧ (runRelay false initR [REv.clientClose 0 ""]).target.closeCalls
      ≠ [(0, "")] := by
  decide

/-- Claim C5 (amended): when either side of an active relay closes, the
other side — if still open — is closed with the same code and reason except
that a zero code becomes 1000 and an empty reason becomes the text
no reason; the session marks itself inactive and logs exactly once, on every
schedule, even when the other side errors in the same instant. -/
theorem c5_close_propagation (code : Nat) (reason : String) (e : WsErr)
    (evs : List REv) :
    ((runRelay false initR [REv.clientClose code reason]).target.closeCalls
        = [(jsCloseCode code, jsCloseReason reason)]
      ∧ (runRelay false initR [REv.clientClose code reason]).cleanups = 1
      ∧ (runRelay false initR [REv.clientClose code reason]).isProxyActive = false)
    ∧ ((runRelay false initR [REv.targetClose code reason]).client.closeCalls
        = [(jsCloseCode code, jsCloseReason reason)]
      ∧ (runRelay false initR [REv.targetClose code reason]).cleanups = 1)
    ∧ (runRelay false initR evs).cleanups ≤ 1
    ∧ ((runRelay false initR [REv.clientClose 1000 "bye", REv.targetErr e]).cleanups = 1
      ∧ (runRelay false initR
          [REv.clientClose 1000 "bye", REv.targetErr e]).target.closeCalls
          = [(1000, "bye")]
      ∧ (runRelay false initR
          [REv.clientClose 1000 "bye", REv.targetErr e]).client.closeCalls = []) := by
  refine ⟨?_, ?_, ?_, ?_⟩
  · refine ⟨?_, ?_, ?_⟩ <;>
      simp [runRelay, relayStep, cleanupR, closeSock, initR, initPeer]
  · constructor <;>
      simp [runRelay, relayStep, cleanupR, closeSock, initR, initPeer]
  · have hq := runRelay_quantity false evs initR
    have hinit : initR.cleanups + (if initR.isProxyActive then 1 else 0) = 1 := rfl
    rw [hinit] at hq
    omega
  · refine ⟨?_, ?_, ?_⟩ <;>
      simp [runRelay, relayStep, cleanupR, closeSock, initR, initPeer,
        jsCloseCode, jsCloseReason]

/-- Witness for C5 at concrete inputs. -/
theorem c5_witness :
    ((runRelay false initR [REv.clientClose 1000 "bye"]).target.closeCalls
        = [(jsCloseCode 1000, jsCloseReason "bye")]
      ∧ (runRelay false initR [REv.clientClose 1000 "bye"]).cleanups = 1
      ∧ (runRelay false initR [REv.clientClose 1000 "bye"]).isProxyActive = false)
    ∧ ((runRelay false initR [REv.targetClose 1000 "bye"]).client.closeCalls
        = [(jsCloseCode 1000, jsCloseReason "bye")]
      ∧ (runRelay false initR [REv.targetClose 1000 "bye"]).cleanups = 1)
    ∧ (runRelay false initR [REv.clientClose 1000 "bye",
        REv.targetErr ⟨"read ECONNRESET", some "ECONNRESET"⟩]).cleanups ≤ 1
    ∧ ((runRelay false initR [REv.clientClose 1000 "bye",
          REv.targetErr ⟨"read ECONNRESET", some "ECONNRESET"⟩]).cleanups = 1
      ∧ (runRelay false initR [REv.clientClose 1000 "bye",
          REv.targetErr ⟨"read ECONNRESET", some "ECONNRESET"⟩]).target.closeCalls
          = [(1000, "bye")]
      ∧ (runRelay false initR [REv.clientClose 1000 "bye",
          REv.targetErr ⟨"read ECONNRESET", some "ECONNRESET"⟩]).client.closeCalls
          = []) :=
  c5_close_propagation 1000 "bye" ⟨"read ECONNRESET", some "ECONNRESET"⟩
    [REv.clientClose 1000 "bye", REv.targetErr ⟨"read ECONNRESET", some "ECONNRESET"⟩]

def isMsgEv : REv → Bool
  | .msgFromClient _ => true
  | .msgFromTarget _ => true
  | _ => false

def clientMsgs (evs : List REv) : List WsData :=
  evs.filterMap (fun ev => match ev with | .msgFromClient d => some d | _ => none)

def targetMsgs (evs : List REv) : List WsData :=
  evs.filterMap (fun ev => match ev with | .msgFromTarget d => some d | _ => none)

/-- Message events on an active relay with both sides open forward in FIFO
order per direction and bump the matching counter, for any interleaving of
the two directions. -/
lemma runRelay_msgs (st : Bool) :
    ∀ (evs : List REv) (s : RState), evs.all isMsgEv = true →
    s.isProxyActive = true → s.target.readyState = 1 → s.client.readyState = 1 →
    (runRelay st s evs).target.sent
        = s.target.sent ++ (clientMsgs evs).map (sendPayload st)
    ∧ (runRelay st s evs).client.sent
        = s.client.sent ++ (targetMsgs evs).map (sendPayload st)
    ∧ (runRelay st s evs).clientToTarget = s.clientToTarget + (clientMsgs evs).length
    ∧ (runRelay st s evs).targetToClient = s.targetToClient + (targetMsgs evs).length := by
  intro evs
  induction evs with
  | nil =>
    intro s _ _ _ _
    simp [runRelay, clientMsgs, targetMsgs]
  | cons ev rest ih =>
    intro s hall hact htr hcr
    rw [List.all_cons, Bool.and_eq_true] at hall
    obtain ⟨hev, hall'⟩ := hall
    cases ev with
    | msgFromClient d =>
      have hstep : relayStep st s (.msgFromClient d)
          = { s with
              target := { s.target with sent := s.target.sent ++ [sendPayload st d] }
              clientToTarget := s.clientToTarget + 1 } := by
        simp [relayStep, hact, htr]
      rw [runRelay, hstep]
      obtain ⟨h1, h2, h3, h4⟩ := ih
        { s with
          target := { s.target with sent := s.target.sent ++ [sendPayload st d] }
          clientToTarget := s.clientToTarget + 1 } hall' hact htr hcr
      refine ⟨?_, ?_, ?_, ?_⟩
      · rw [h1]
        simp [clientMsgs]
      · rw [h2]
        simp [targetMsgs]
      · rw [h3]
        simp [clientMsgs]
        omega
      · rw [h4]
        simp [targetMsgs]
    | msgFromTarget d =>
      have hstep : relayStep st s (.msgFromTarget d)
          = { s with
              client := { s.client with sent := s.client.sent ++ [sendPayload st d] }
              targetToClient := s.targetToClient + 1 } := by
        simp [relayStep, hact, hcr]
      rw [runRelay, hstep]
      obtain ⟨h1, h2, h3, h4⟩ := ih
        { s with
          client := { s.client with sent := s.client.sent ++ [sendPayload st d] }
          targetToClient := s.targetToClient + 1 } hall' hact htr hcr
      refine ⟨?_, ?_, ?_, ?_⟩
      · rw [h1]
        simp [clientMsgs]
      · rw [h2]
        simp [targetMsgs]
      · rw [h3]
        simp [clientMsgs]
      · rw [h4]
        simp [targetMsgs]
        omega
    | clientClose code reason => simp [isMsgEv] at hev
    | targetClose code reason => simp [isMsgEv] at hev
    | clientErr e => simp [isMsgEv] at hev
    | targetErr e => simp [isMsgEv] at hev
    | pingTick => simp [isMsgEv] at hev

/-- Claim C6, counterexample: the simple proxy relay sends
`data.toString()`, so a binary frame (the single byte 0x68) reaches the
other side as the text frame h, not byte-identically. -/
theorem c6_counterexample :
    (runRelay true initR [REv.msgFromClient (WsData.bin [104])]).target.sent
      = [WsData.txt "h"]
    ∧ (runRelay true initR [REv.msgFromClient (WsData.bin [104])]).target.sent
      ≠ [WsData.bin [104]] := by
  decide

/-- Claim C6 (amended): in the routed relay every message received while the
destination is open is forwarded verbatim in FIFO order per direction (both
directions interleaved arbitrarily) and the direction counter is
incremented; a message whose destination is not open is dropped with a
recorded warning and no close or error is surfaced to either peer; the
simple proxy relay instead forwards the stringified payload. -/
theorem c6_forwarding (evs : List REv) (d : WsData) (s : RState)
    (hall : evs.all isMsgEv = true) (hact : s.isProxyActive = true)
    (hnotopen : s.target.readyState ≠ 1) :
    ((runRelay false initR evs).target.sent = clientMsgs evs
      ∧ (runRelay false initR evs).client.sent = targetMsgs evs
      ∧ (runRelay false initR evs).clientToTarget = (clientMsgs evs).length
      ∧ (runRelay false initR evs).targetToClient = (targetMsgs evs).length)
    ∧ relayStep false s (.msgFromClient d) = { s with warnings := s.warnings + 1 }
    ∧ (runRelay true initR [REv.msgFromClient d]).target.sent
        = [WsData.txt (dataToString d)] := by
  refine ⟨?_, ?_, ?_⟩
  · obtain ⟨h1, h2, h3, h4⟩ := runRelay_msgs false evs initR hall rfl rfl rfl
    rw [h1, h2, h3, h4,
      show sendPayload false = id from funext (fun _ => rfl), List.map_id,
      List.map_id]
    simp [initR, initPeer]
  · simp [relayStep, hact, hnotopen]
  · simp [runRelay, relayStep, initR, initPeer, sendPayload]

/-- Relay state whose target side is already closed, for the C6 witness. -/
def c6DropState : RState :=
  { initR with target := { initPeer with readyState := 3 } }

/-- Witness for C6 at a concrete interleaving and a concrete dropped
message. -/
theorem c6_witness :
    (([REv.msgFromClient (WsData.bin [1, 2]), REv.msgFromTarget (WsData.txt "ok"),
        REv.msgFromClient (WsData.txt "m2")].all isMsgEv) = true)
    ∧ c6DropState.isProxyActive = true
    ∧ c6DropState.target.readyState ≠ 1
    ∧ (((runRelay false initR
          [REv.msgFromClient (WsData.bin [1, 2]), REv.msgFromTarget (WsData.txt "ok"),
            REv.msgFromClient (WsData.txt "m2")]).target.sent
          = clientMsgs [REv.msgFromClient (WsData.bin [1, 2]),
              REv.msgFromTarget (WsData.txt "ok"), REv.msgFromClient (WsData.txt "m2")]
        ∧ (runRelay false initR
            [REv.msgFromClient (WsData.bin [1, 2]), REv.msgFromTarget (WsData.txt "ok"),
              REv.msgFromClient (WsData.txt "m2")]).client.sent
          = targetMsgs [REv.msgFromClient (WsData.bin [1, 2]),
              REv.msgFromTarget (WsData.txt "ok"), REv.msgFromClient (WsData.txt "m2")]
        ∧ (runRelay false initR
            [REv.msgFromClient (WsData.bin [1, 2]), REv.msgFromTarget (WsData.txt "ok"),
              REv.msgFromClient (WsData.txt "m2")]).clientToTarget
          = (clientMsgs [REv.msgFromClient (WsData.bin [1, 2]),
              REv.msgFromTarget (WsData.txt "ok"),
              REv.msgFromClient (WsData.txt "m2")]).length
        ∧ (runRelay false initR
            [REv.msgFromClient (WsData.bin [1, 2]), REv.msgFromTarget (WsData.txt "ok"),
              REv.msgFromClient (WsData.txt "m2")]).targetToClient
          = (targetMsgs [REv.msgFromClient (WsData.bin [1, 2]),
              REv.msgFromTarget (WsData.txt "ok"),
              REv.msgFromClient (WsData.txt "m2")]).length)
      ∧ relayStep false c6DropState (.msgFromClient (WsData.txt "x"))
          = { c6DropState with warnings := c6DropState.warnings + 1 }
      ∧ (runRelay true initR [REv.msgFromClient (WsData.txt "x")]).target.sent
          = [WsData.txt (dataToString (WsData.txt "x"))]) :=
  ⟨by decide, by decide, by decide,
    c6_forwarding
      [REv.msgFromClient (WsData.bin [1, 2]), REv.msgFromTarget (WsData.txt "ok"),
        REv.msgFromClient (WsData.txt "m2")]
      (WsData.txt "x") c6DropState (by decide) (by decide) (by decide)⟩

/-- While active, ticks of the keepalive interval ping each open side once
per tick. -/
lemma runRelay_ticks_active (st : Bool) :
    ∀ (n : Nat) (s : RState), s.isProxyActive = true → s.timerOn = true →
    s.target.readyState = 1 → s.client.readyState = 1 →
    (runRelay st s (List.replicate n .pingTick)).target.pings = s.target.pings + n
    ∧ (runRelay st s (List.replicate n .pingTick)).client.pings
        = s.client.pings + n := by
  intro n
  induction n with
  | zero =>
    intro s _ _ _ _
    simp [runRelay]
  | succ k ih =>
    intro s hact htm htr hcr
    rw [List.replicate_succ]
    have hstep : relayStep st s .pingTick
        = { s with
            target := { s.target with pings := s.target.pings + 1 }
            client := { s.client with pings := s.client.pings + 1 } } := by
      simp [relayStep, hact, htm, htr, hcr]
    rw [runRelay, hstep]
    obtain ⟨h1, h2⟩ := ih
      { s with
        target := { s.target with pings := s.target.pings + 1 }
        client := { s.client with pings := s.client.pings + 1 } } hact htm htr hcr
    rw [h1, h2]
    constructor <;> (show _ + 1 + k = _ + (k + 1)) <;> omega

/-- After the session becomes inactive, the ticks of the interval never ping
again (the first tick only cancels the timer). -/
lemma runRelay_ticks_inactive (st : Bool) :
    ∀ (n : Nat) (s : RState), s.isProxyActive = false →
    (runRelay st s (List.replicate n .pingTick)).target.pings = s.target.pings
    ∧ (runRelay st s (List.replicate n .pingTick)).client.pings
        = s.client.pings := by
  intro n
  induction n with
  | zero =>
    intro s _
    simp [runRelay]
  | succ k ih =>
    intro s hact
    rw [List.replicate_succ]
    cases htm : s.timerOn with
    | false =>
      have hstep : relayStep st s .pingTick = s := by
        simp [relayStep, htm]
      rw [runRelay, hstep]
      exact ih s hact
    | true =>
      have hstep : relayStep st s .pingTick = { s with timerOn := false } := by
        simp [relayStep, htm, hact]
      rw [runRelay, hstep]
      exact ih { s with timerOn := false } hact

/-- Claim C9: on each interval tick of an active session each open side
receives one keepalive ping, independently of message traffic; once the
session is inactive no ping is ever sent again (the timer is cancelled on
its next tick); from the initial relay state, n ticks produce exactly n
pings per side. -/
theorem c9_keepalive (s : RState) (n : Nat) :
    (s.timerOn = true → s.isProxyActive = true →
      (relayStep false s .pingTick).target.pings
          = s.target.pings + (if s.target.readyState = 1 then 1 else 0)
      ∧ (relayStep false s .pingTick).client.pings
          = s.client.pings + (if s.client.readyState = 1 then 1 else 0))
    ∧ (s.isProxyActive = false →
        (runRelay false s (List.replicate n .pingTick)).target.pings
            = s.target.pings
        ∧ (runRelay false s (List.replicate n .pingTick)).client.pings
            = s.client.pings)
    ∧ ((runRelay false initR (List.replicate n .pingTick)).target.pings = n
      ∧ (runRelay false initR (List.replicate n .pingTick)).client.pings = n) := by
  refine ⟨?_, ?_, ?_⟩
  · intro htm hact
    by_cases htr : s.target.readyState = 1 <;> by_cases hcr : s.client.readyState = 1 <;>
      constructor <;> simp [relayStep, hact, htm, htr, hcr]
  · intro hact
    exact runRelay_ticks_inactive false n s hact
  · obtain ⟨h1, h2⟩ := runRelay_ticks_active false n initR rfl rfl rfl rfl
    rw [h1, h2]
    constructor <;> simp [initR, initPeer]

/-- Relay state that has already been torn down, for the C9 witness. -/
def c9Inactive : RState := { initR with isProxyActive := false }

/-- Witness for C9 at concrete inputs. -/
theorem c9_witness :
    ((relayStep false initR .pingTick).target.pings
        = initR.target.pings + (if initR.target.readyState = 1 then 1 else 0)
      ∧ (relayStep false initR .pingTick).client.pings
        = initR.client.pings + (if initR.client.readyState = 1 then 1 else 0))
    ∧ ((runRelay false c9Inactive (List.replicate 3 .pingTick)).target.pings
        = c9Inactive.target.pings
      ∧ (runRelay false c9Inactive (List.replicate 3 .pingTick)).client.pings
        = c9Inactive.client.pings)
    ∧ ((runRelay false initR (List.replicate 3 .pingTick)).target.pings = 3
      ∧ (runRelay false initR (List.replicate 3 .pingTick)).client.pings = 3) :=
  ⟨(c9_keepalive initR 3).1 rfl rfl, (c9_keepalive c9Inactive 3).2.1 rfl,
    (c9_keepalive initR 3).2.2⟩
